import Mathlib

set_option maxRecDepth 100000

/-!
Verification of the First-Aid-Assistant hybrid retrieval-and-synthesis pipeline.

Shallow embedding of the query-time pipeline of `backend/RAG/rag.py`
(`FirstAidRAGAssistant`), of the conversation manager of
`backend/api/conversation.py`, and of the embedding generator of
`backend/RAG/embeddings.py`.  External collaborators (BioBERT encoder,
Pinecone index, MongoDB collections, Groq chat completion, the clock) are
modelled as an explicit environment of deterministic functions returning
`Except String`; code that catches a collaborator exception is modelled by
matching on the `Except`, code that lets it propagate stays in the `Except`
monad.  Float scores are modelled as exact rationals.
-/

namespace FirstAid

/- The Batteries rational arithmetic is `@[irreducible]`; the concrete
witnesses below evaluate pipeline runs definitionally, so restore default
reducibility (the kernel ignores reducibility attributes either way). -/
attribute [local semireducible] Rat.add Rat.sub Rat.mul Rat.inv

/-! ### String utilities mirroring the Python primitives used by the source -/

/-- `List.isPrefixOf` on characters, as a Bool scan. -/
def listStartsWith : List Char → List Char → Bool
  | [], _ => true
  | _ :: _, [] => false
  | a :: as, b :: bs => a == b && listStartsWith as bs

/-- Whether `needle` occurs as a contiguous sublist of `hay`. -/
def listHasSub (needle : List Char) : List Char → Bool
  | [] => listStartsWith needle []
  | c :: rest => listStartsWith needle (c :: rest) || listHasSub needle rest

/-- Python `needle in hay` on strings. -/
def strContains (hay needle : String) : Bool :=
  listHasSub needle.data hay.data

/-- Python `str.lower()` (the source's inputs are ASCII). -/
def pyLower (s : String) : String :=
  String.mk (s.data.map Char.toLower)

/-- Splitter of `pySplitWS`: left-to-right scan accumulating the current
word reversed. -/
def splitWSGo : List Char → List Char → List String
  | [], cur => if cur.isEmpty then [] else [String.mk cur.reverse]
  | c :: cs, cur =>
    if c.isWhitespace then
      (if cur.isEmpty then [] else [String.mk cur.reverse]) ++ splitWSGo cs []
    else splitWSGo cs (c :: cur)

/-- Python `str.split()` with no argument: the maximal non-whitespace runs. -/
def pySplitWS (s : String) : List String :=
  splitWSGo s.data []

/-- Python `sep.join(parts)`. -/
def joinSep (sep : String) : List String → String
  | [] => ""
  | [x] => x
  | x :: xs => x ++ sep ++ joinSep sep xs

/-- Python `s.replace(pat, rep)`: replace every non-overlapping occurrence,
leftmost first.  Fuel bounds the scan; every step consumes at least one
character (the call sites only use non-empty patterns). -/
def replaceGo (pat rep : List Char) : Nat → List Char → List Char
  | 0, cs => cs
  | _ + 1, [] => []
  | fuel + 1, c :: cs =>
    if listStartsWith pat (c :: cs) then
      rep ++ replaceGo pat rep fuel (List.drop pat.length (c :: cs))
    else c :: replaceGo pat rep fuel cs

def pyReplace (s pat rep : String) : String :=
  if pat.data.isEmpty then s
  else String.mk (replaceGo pat.data rep.data (s.data.length + 1) s.data)

/-- Python `str.strip()`: remove leading and trailing whitespace. -/
def pyStrip (s : String) : String :=
  String.mk (((s.data.dropWhile Char.isWhitespace).reverse.dropWhile
    Char.isWhitespace).reverse)

/-- `re.sub(r'[?!]+$', '', s)`: drop one trailing run of `?`/`!`. -/
def dropTrailingQE (s : String) : String :=
  String.mk ((s.data.reverse.dropWhile (fun c => c == '?' || c == '!')).reverse)

/-- Python `str.title()`: uppercase every character that follows a
non-alphabetic character, lowercase the rest. -/
def pyTitleGo : Bool → List Char → List Char
  | _, [] => []
  | prevAlpha, c :: cs =>
      (if prevAlpha then c.toLower else c.toUpper) :: pyTitleGo c.isAlpha cs

def pyTitle (s : String) : String :=
  String.mk (pyTitleGo false s.data)

/-! ### Query processor (`rag.py` lines 165–203) -/

/-- `FirstAidRAGAssistant.preprocess_query`: lowercase, collapse whitespace,
strip one trailing run of `?`/`!`, trim. -/
def preprocess_query (query : String) : String :=
  let q := pyLower query
  let q := joinSep " " (pySplitWS q)
  pyStrip (dropTrailingQE q)

/-- `FirstAidRAGAssistant.medical_synonyms`, in Python dict insertion order. -/
def medical_synonyms : List (String × List String) :=
  [("choking", ["airway obstruction", "blocked airway", "cannot breathe", "foreign object throat"]),
   ("bleeding", ["hemorrhage", "blood loss", "cut", "wound", "laceration"]),
   ("burn", ["scald", "thermal injury", "fire injury", "heat damage"]),
   ("headache", ["head pain", "migraine", "cephalgia"]),
   ("poisoning", ["toxic ingestion", "overdose", "toxic exposure"]),
   ("heart attack", ["cardiac arrest", "myocardial infarction", "chest pain"]),
   ("fracture", ["broken bone", "bone break", "bone fracture"]),
   ("seizure", ["convulsion", "fit", "epileptic episode"]),
   ("allergic", ["anaphylaxis", "allergic reaction", "hypersensitivity"]),
   ("unconscious", ["unresponsive", "loss of consciousness", "passed out"]),
   ("breathing", ["respiration", "respiratory", "airway"]),
   ("snake", ["serpent", "venomous bite", "reptile bite"]),
   ("alcohol", ["intoxication", "ethanol", "drunk"]),
   ("heat", ["hyperthermia", "heat stroke", "overheating"]),
   ("cold", ["hypothermia", "freezing", "frostbite"])]

/-- `FirstAidRAGAssistant.expand_query`: substitute table synonyms into the
query, original first, skip duplicates, truncate to 5. -/
def expand_query (query : String) : List String :=
  let ql := pyLower query
  let expanded := medical_synonyms.foldl
    (fun acc p =>
      if strContains ql p.1 then
        (p.2.take 5).foldl
          (fun acc syn =>
            let e := pyReplace ql p.1 syn
            if e ∈ acc then acc else acc ++ [e]) acc
      else acc)
    [query]
  expanded.take 5

/-- The fixed stop-word set of `extract_keywords`. -/
def stop_words : List String :=
  ["is", "am", "are", "what", "how", "do", "to", "the", "a", "an",
   "my", "i", "on", "for", "with", "from", "and", "or", "should",
   "can", "will", "having", "have", "has"]

/-- `FirstAidRAGAssistant.extract_keywords`: lowercase whitespace split,
drop stop words and tokens of length ≤ 2. -/
def extract_keywords (query : String) : List String :=
  (pySplitWS (pyLower query)).filter
    (fun w => !(stop_words.contains w) && decide (2 < w.length))

/-! ### Output sanitizer (`rag.py` `clean_response_format`, lines 138–163)

Each `re.sub` of the source is modelled by a left-to-right scanner with the
exact backtracking behaviour of the Python pattern.  The scanners carry a
fuel argument bounding the number of scan steps; every step consumes at
least one input character, so fuel `length + 1` never runs out. -/

/-- Greedily take up to `n` leading `#` characters. -/
def grabHashes : Nat → List Char → Nat × List Char
  | 0, cs => (0, cs)
  | n + 1, cs =>
    match cs with
    | '#' :: rest => let (k, r) := grabHashes n rest; (k + 1, r)
    | _ => (0, cs)

/-- `re.sub(r'^\s*#{1,6}\s*', '', text, flags=re.MULTILINE)`.
`atStart` records whether the current position is a line start (position 0
or just after a newline); `\s*` is greedy and crosses newlines. -/
def rmHeadingsGo : Nat → Bool → List Char → List Char
  | 0, _, cs => cs
  | _ + 1, _, [] => []
  | fuel + 1, atStart, c :: cs =>
    if atStart then
      let s := List.span Char.isWhitespace (c :: cs)
      match s.2 with
      | '#' :: t =>
        let g := grabHashes 6 ('#' :: t)
        let s2 := List.span Char.isWhitespace g.2
        let nextStart := match s2.1.getLast? with
          | some '\n' => true
          | _ => false
        rmHeadingsGo fuel nextStart s2.2
      | _ => c :: rmHeadingsGo fuel (c == '\n') cs
    else c :: rmHeadingsGo fuel (c == '\n') cs

def rmHeadings (cs : List Char) : List Char :=
  rmHeadingsGo (cs.length + 1) true cs

/-- Closing `\*{1,2}` of the bold/italic pattern: at the first `*` reached,
greedily take two stars when available, else one.  `acc` is the reversed
content matched so far (at least one character). -/
def starClose : List Char → List Char → Option (List Char × List Char)
  | acc, '*' :: '*' :: rest => some (acc.reverse, rest)
  | acc, '*' :: rest => some (acc.reverse, rest)
  | acc, c :: rest => starClose (c :: acc) rest
  | _, [] => none

/-- Lazy `(.+?)` (DOTALL) followed by the closing stars. -/
def starContent : List Char → Option (List Char × List Char)
  | [] => none
  | c :: rest => starClose [c] rest

/-- One attempted match of `\*{1,2}(.+?)\*{1,2}` at the current position:
the opening `\*{1,2}` greedily tries two stars first, backtracking to one
when no close can be found. -/
def tryStar : List Char → Option (List Char × List Char)
  | '*' :: '*' :: rest =>
    (match starContent rest with
     | some r => some r
     | none => starContent ('*' :: rest))
  | '*' :: rest => starContent rest
  | _ => none

/-- `re.sub(r'\*{1,2}(.+?)\*{1,2}', r'\1', text, flags=re.DOTALL)`. -/
def rmStarsGo : Nat → List Char → List Char
  | 0, cs => cs
  | _ + 1, [] => []
  | fuel + 1, c :: cs =>
    if c == '*' then
      match tryStar (c :: cs) with
      | some (content, rest) => content ++ rmStarsGo fuel rest
      | none => c :: rmStarsGo fuel cs
    else c :: rmStarsGo fuel cs

def rmStars (cs : List Char) : List Char :=
  rmStarsGo (cs.length + 1) cs

/-- Closing backtick of the inline-code pattern. -/
def tickClose : List Char → List Char → Option (List Char × List Char)
  | acc, c :: rest =>
    if c == '\u0060' then some (acc.reverse, rest) else tickClose (c :: acc) rest
  | _, [] => none

/-- One attempted match of `` `(.+?)` `` at the current position. -/
def tryTick : List Char → Option (List Char × List Char)
  | c :: d :: rest =>
    if c == '\u0060' then tickClose [d] rest else none
  | _ => none

/-- `re.sub(r'`(.+?)`', r'\1', text, flags=re.DOTALL)`. -/
def rmTicksGo : Nat → List Char → List Char
  | 0, cs => cs
  | _ + 1, [] => []
  | fuel + 1, c :: cs =>
    if c == '\u0060' then
      match tryTick (c :: cs) with
      | some (content, rest) => content ++ rmTicksGo fuel rest
      | none => c :: rmTicksGo fuel cs
    else c :: rmTicksGo fuel cs

def rmTicks (cs : List Char) : List Char :=
  rmTicksGo (cs.length + 1) cs

/-- `re.sub(r'(?m)^[\s]*[-\*•]\s+', '• ', text)`. -/
def bulletsGo : Nat → Bool → List Char → List Char
  | 0, _, cs => cs
  | _ + 1, _, [] => []
  | fuel + 1, atStart, c :: cs =>
    if atStart then
      let s := List.span Char.isWhitespace (c :: cs)
      match s.2 with
      | b :: r2 =>
        if b == '-' || b == '*' || b == '•' then
          let s2 := List.span Char.isWhitespace r2
          if s2.1.isEmpty then c :: bulletsGo fuel (c == '\n') cs
          else
            let nextStart := match s2.1.getLast? with
              | some '\n' => true
              | _ => false
            '•' :: ' ' :: bulletsGo fuel nextStart s2.2
        else c :: bulletsGo fuel (c == '\n') cs
      | [] => c :: bulletsGo fuel (c == '\n') cs
    else c :: bulletsGo fuel (c == '\n') cs

def normBullets (cs : List Char) : List Char :=
  bulletsGo (cs.length + 1) true cs

/-- `re.sub(r'\n{3,}', '\n\n', text)`. -/
def collapseGo : Nat → List Char → List Char
  | 0, cs => cs
  | _ + 1, [] => []
  | fuel + 1, c :: cs =>
    if c == '\n' then
      let s := List.span (fun x => x == '\n') (c :: cs)
      (if 3 ≤ s.1.length then ['\n', '\n'] else s.1) ++ collapseGo fuel s.2
    else c :: collapseGo fuel cs

def collapseNL (cs : List Char) : List Char :=
  collapseGo (cs.length + 1) cs

/-- `FirstAidRAGAssistant.clean_response_format`: remove markdown headings,
bold/italic and inline-code wrappers, normalize bullets, collapse 3+
newlines to 2, trim. -/
def clean_response_format (text : String) : String :=
  if text = "" then text
  else
    let t1 := rmHeadings text.data
    let t2 := rmStars t1
    let t3 := rmTicks t2
    let t4 := normBullets t3
    let t5 := collapseNL t4
    String.mk (((t5.dropWhile Char.isWhitespace).reverse.dropWhile
      Char.isWhitespace).reverse)

/-! ### Data model

Scores are exact rationals standing for the source's floats; Mongo ISO-8601
timestamp strings are modelled as naturals (ISO strings compare
chronologically under Mongo's lexicographic string order). -/

/-- Metadata carried by a Pinecone match. -/
structure PineMeta where
  text : String
  title : String
  category : String
  severity : String
  source : String
  scenario_id : String
deriving DecidableEq, Repr

/-- One Pinecone query match: `{id, score, metadata}`. -/
structure PMatch where
  id : String
  score : ℚ
  metadata : PineMeta
deriving DecidableEq, Repr

/-- A document of the MongoDB `chunks` collection. -/
structure ChunkDoc where
  chunk_id : String
  text : String
  title : String
  category : String
  severity : String
  source : String
  scenario_id : String
deriving DecidableEq, Repr

/-- The chunk dict flowing through the pipeline.  The source adds the keys
`search_method` at retrieval time and `keyword_overlap`/`boosted_score` at
rerank time; here they are plain fields, initialised to `""`/`0`/`0` and
only read after the stage that sets them. -/
structure Chunk where
  chunk_id : String
  score : ℚ
  text : String
  title : String
  category : String
  severity : String
  source : String
  scenario_id : String
  search_method : String
  keyword_overlap : Nat
  boosted_score : ℚ
deriving DecidableEq, Repr

/-- A document of the MongoDB `chat_history` collection. -/
structure MsgDoc where
  role : String
  content : String
  timestamp : Nat
deriving DecidableEq, Repr

/-- A chat message `{role, content}` (what `get_chat_history` returns and
what the Groq request carries). -/
structure Msg where
  role : String
  content : String
deriving DecidableEq, Repr

/-- One entry of the `sources` list of the result of `answer_query`. -/
structure SourceItem where
  title : String
  source : String
  category : String
  severity : String
  relevance_score : ℚ
  search_method : String
deriving DecidableEq, Repr

/-- The dict returned by `answer_query`.  On the no-candidates fallback path
the source omits the `avg_relevance` key, hence the `Option`. -/
structure Answer where
  query : String
  response : String
  sources : List SourceItem
  confidence : String
  chunks_found : Nat
  avg_relevance : Option ℚ
  timestamp : String
deriving DecidableEq, Repr

/-- The external collaborators of the pipeline, as deterministic functions.
`Except.error` stands for a raised exception / timeout of the collaborator. -/
structure Env where
  /-- BioBERT tokenizer+model: token-level hidden states of the first batch
  row (`outputs.last_hidden_state[0]`). -/
  encode : String → Except String (List (List ℚ))
  /-- `self.index.query(vector, top_k, include_metadata=True).matches`. -/
  indexQuery : List ℚ → Nat → Except String (List PMatch)
  /-- `self.chunks_collection.find_one({'chunk_id': id})`. -/
  findChunk : String → Except String (Option ChunkDoc)
  /-- `self.chunks_collection.find({"$text": {"$search": terms}})` ranked by
  text score, limited — takes the joined search terms and the limit. -/
  textSearch : String → Nat → Except String (List ChunkDoc)
  /-- `self.groq_client.chat.completions.create(...)` at the fixed decoding
  parameters of the source (temperature 0.3, max_tokens 2500, top_p 0.9):
  the generated text for a message list. -/
  groq : List Msg → Except String String
  /-- `self.chat_history_collection.find({"conversation_id": cid})`. -/
  historyFind : String → Except String (List MsgDoc)
  /-- `datetime.utcnow().isoformat()`. -/
  now : String

/-! ### Stable sorts

Python's `list.sort(key=k, reverse=True)` is the unique permutation that is
non-increasing on the key and keeps elements with equal keys in their
original relative order; insertion sort below realises exactly that, and
`sortAscBy` plays the same role for the ascending Mongo `.sort(f, 1)`. -/

def insertDescBy (key : α → ℚ) (x : α) : List α → List α
  | [] => [x]
  | y :: ys => if key y ≤ key x then x :: y :: ys else y :: insertDescBy key x ys

def sortDescBy (key : α → ℚ) : List α → List α
  | [] => []
  | x :: xs => insertDescBy key x (sortDescBy key xs)

def insertAscBy (key : α → Nat) (x : α) : List α → List α
  | [] => [x]
  | y :: ys => if key x < key y then x :: y :: ys else y :: insertAscBy key x ys

def sortAscBy (key : α → Nat) : List α → List α
  | [] => []
  | x :: xs => insertAscBy key x (sortAscBy key xs)

/-! ### Retrieval (`rag.py` lines 205–339) -/

/-- `FirstAidRAGAssistant.generate_embedding`: first-token (CLS) pooling of
the encoder output — `outputs.last_hidden_state[:, 0, :]` — with no
normalization step. -/
def generate_embedding (env : Env) (text : String) : Except String (List ℚ) := do
  let hidden ← env.encode text
  pure (hidden.headD [])

/-- `FirstAidRAGAssistant._build_chunk_from_match`: a `find_one` exception is
caught and yields `None`; a missing document falls back to the match
metadata's text. -/
def build_chunk_from_match (env : Env) (m : PMatch) : Option Chunk :=
  match env.findChunk m.id with
  | .error _ => none
  | .ok odoc =>
    some
      { chunk_id := m.id
        score := m.score
        text := match odoc with
          | some d => d.text
          | none => m.metadata.text
        title := m.metadata.title
        category := m.metadata.category
        severity := m.metadata.severity
        source := m.metadata.source
        scenario_id := m.metadata.scenario_id
        search_method := ""
        keyword_overlap := 0
        boosted_score := 0 }

/-- `FirstAidRAGAssistant._keyword_search_mongodb`: text search over the
joined keywords, wrapped with score 0.60; any exception yields `[]`. -/
def keyword_search_mongodb (env : Env) (keywords : List String) (limit : Nat) :
    List Chunk :=
  match env.textSearch (joinSep " " keywords) limit with
  | .error _ => []
  | .ok docs =>
    docs.map fun d =>
      { chunk_id := d.chunk_id
        text := d.text
        title := d.title
        category := d.category
        severity := d.severity
        source := d.source
        scenario_id := d.scenario_id
        score := 3/5
        search_method := ""
        keyword_overlap := 0
        boosted_score := 0 }

/-- One semantic stage of `hybrid_search`: for each match with
`score >= min_score` whose id is not yet seen, build the chunk and append it
tagged `tag`; the id is recorded as seen only when the build succeeds,
exactly as in the source. -/
def addMatches (env : Env) (tag : String) (min_score : ℚ) (ms : List PMatch)
    (st : List Chunk × List String) : List Chunk × List String :=
  ms.foldl
    (fun st m =>
      if min_score ≤ m.score ∧ st.2.contains m.id = false then
        match build_chunk_from_match env m with
        | some c =>
          (st.1 ++ [{ c with search_method := tag }], st.2 ++ [m.id])
        | none => st
      else st)
    st

/-- The keyword-fallback stage of `hybrid_search`: chunks whose id is not
yet seen are appended tagged `keyword_fallback` with score overwritten to
the fixed 0.65. -/
def addKeywordChunks (kcs : List Chunk)
    (st : List Chunk × List String) : List Chunk × List String :=
  kcs.foldl
    (fun st c =>
      if st.2.contains c.chunk_id = false then
        (st.1 ++ [{ c with search_method := "keyword_fallback", score := 13/20 }],
         st.2 ++ [c.chunk_id])
      else st)
    st

/-- The per-variant embed+query loop of stage 2 of `hybrid_search`; an
exception from the encoder or the index propagates, as in the source. -/
def expansionResults (env : Env) : List String → Except String (List (List PMatch))
  | [] => pure []
  | v :: vs => do
    let e ← generate_embedding env v
    let r ← env.indexQuery e 5
    let rest ← expansionResults env vs
    pure (r :: rest)

/-- The pure accumulation of `hybrid_search` over the already-fetched index
responses: primary stage, expansion stage, then the keyword fallback stage
when fewer than 3 unique candidates were accumulated.  `query` is the raw
query (the keyword stage extracts keywords from it, not from the cleaned
one). -/
def hybridCore (env : Env) (query : String) (res : List PMatch)
    (expRes : List (List PMatch)) (min_score : ℚ) : List Chunk :=
  let st1 := addMatches env "semantic_original" min_score res ([], [])
  let st2 := expRes.foldl
    (fun st ms => addMatches env "semantic_expanded" min_score ms st) st1
  if st2.1.length < 3 then
    (addKeywordChunks (keyword_search_mongodb env (extract_keywords query) 5) st2).1
  else st2.1

/-- `FirstAidRAGAssistant.hybrid_search`: semantic search on the cleaned
query, semantic search on each expansion variant, keyword fallback, then
sort by score descending and truncate to `top_k`.  The external calls are
sequenced up front; the interleaved pure accumulation of the source is
`hybridCore` and is unaffected by the hoisting since the environment is
deterministic and effect-free. -/
def hybrid_search (env : Env) (query : String) (top_k : Nat) (min_score : ℚ) :
    Except String (List Chunk) := do
  let clean_query := preprocess_query query
  let emb ← generate_embedding env clean_query
  let res ← env.indexQuery emb top_k
  let expRes ← expansionResults env ((expand_query clean_query).drop 1)
  pure ((sortDescBy Chunk.score (hybridCore env query res expRes min_score)).take top_k)

/-- The annotation step of `rerank_chunks`: `keyword_overlap` is the size of
the intersection of the query's and the chunk text's keyword sets, and
`boosted_score = score + overlap * 0.02`. -/
def annotateChunk (query_terms : List String) (c : Chunk) : Chunk :=
  let overlap :=
    ((extract_keywords c.text).dedup.filter (fun w => query_terms.contains w)).length
  { c with keyword_overlap := overlap
           boosted_score := c.score + overlap * (1/50) }

/-- `FirstAidRAGAssistant.rerank_chunks`: annotate every chunk with keyword
overlap and boosted score, then stable-sort by boosted score descending. -/
def rerank_chunks (chunks : List Chunk) (query : String) : List Chunk :=
  if chunks.isEmpty then chunks
  else
    let query_terms := (extract_keywords query).dedup
    sortDescBy Chunk.boosted_score (chunks.map (annotateChunk query_terms))

/-! ### Numeric formatting helpers -/

/-- Round to the nearest integer, ties to even (Python's rounding mode). -/
def roundHalfEven (q : ℚ) : ℤ :=
  let f := ⌊q⌋
  let r := q - f
  if r < 1/2 then f
  else if 1/2 < r then f + 1
  else if f % 2 = 0 then f else f + 1

def pad3 (n : Nat) : String :=
  (if n < 10 then "00" else if n < 100 then "0" else "") ++ toString n

/-- Python `f"{x:.3f}"` on our exact rationals. -/
def formatQ3 (q : ℚ) : String :=
  let n := roundHalfEven (q * 1000)
  let a := n.natAbs
  (if n < 0 then "-" else "") ++ toString (a / 1000) ++ "." ++ pad3 (a % 1000)

/-- Python `round(x, 3)` on our exact rationals (ties to even; the sources'
scores never hit a tie). -/
def pyRound3 (q : ℚ) : ℚ :=
  (roundHalfEven (q * 1000) : ℚ) / 1000

/-! ### Response synthesis (`rag.py` lines 362–440) -/

/-- `FirstAidRAGAssistant.system_prompt`. -/
def system_prompt : String :=
  "You are an expert first aid assistant with access to authoritative medical sources. \n\n**Response Format**:\n\nWARNING: Immediate Action\n[Critical first steps - include \"CALL 911/999 IMMEDIATELY\" for life-threatening situations]\n\nStep-by-Step Instructions\n1. [First action]\n2. [Second action]\n3. [Continue with clear steps]\n\nWhen to Seek Medical Help\n- [Warning sign 1]\n- [Warning sign 2]\n\nWhat NOT to Do\n- [Avoid 1]\n- [Avoid 2]\n\nAdditional Notes\n[Important context, warnings, or tips]\n\n\n**Guidelines**:\n- Use simple, clear language\n- Be specific and actionable\n- Always prioritize safety\n- Cite sources used\n- If information is limited, say so clearly\n- For emergencies, emphasize calling 911/999"

/-- `c['source'].split(':')[0] if c['source'] else 'Unknown'`. -/
def sourceLabel (s : String) : String :=
  if s = "" then "Unknown" else String.mk (s.data.takeWhile (fun c => !(c == ':')))

/-- One `SOURCE i:` block of `build_rich_context`. -/
def contextBlock (i : Nat) (c : Chunk) : String :=
  "\nSOURCE " ++ toString i ++ ": " ++ sourceLabel c.source ++
  "\nTitle: " ++ c.title ++
  "\nCategory: " ++ c.category ++ " | Severity: " ++ c.severity ++
  "\nRelevance: " ++ formatQ3 c.score ++ " | Method: " ++ c.search_method ++
  "\n\nContent:\n" ++ c.text ++ "\n"

/-- `FirstAidRAGAssistant.build_rich_context` (the chunks reaching it always
carry a `search_method`, so the `.get(..., 'N/A')` default never fires). -/
def build_rich_context (chunks : List Chunk) (max_chunks : Nat) : String :=
  joinSep "\n"
    ((chunks.take max_chunks).mapIdx (fun i c => contextBlock (i + 1) c))

/-- Python `l[-6:]`. -/
def lastSix (l : List α) : List α :=
  l.drop (l.length - 6)

/-- The user prompt of `generate_response_with_groq`: the question plus the
assembled context plus the generation instructions. -/
def groqUserPrompt (query : String) (context_chunks : List Chunk) : String :=
  "Using the authoritative medical information below, provide a comprehensive first aid response.\n\nQuestion: " ++
  query ++ "\n\nMedical Knowledge Base:\n" ++ build_rich_context context_chunks 6 ++
  "\n\nInstructions:\n1. Follow the structured response format\n2. Be specific and actionable\n3. Cite which sources you used\n4. If information is limited, acknowledge it\n5. For life-threatening situations, emphasize calling emergency services\n6. Use simple, clear language"

/-- The message list sent to the generation service: system prompt, last 3
exchanges (6 messages) of the history, then the user prompt. -/
def groqMessages (query : String) (context_chunks : List Chunk)
    (chat_history : List Msg) : List Msg :=
  [Msg.mk "system" system_prompt] ++ lastSix chat_history ++
  [Msg.mk "user" (groqUserPrompt query context_chunks)]

/-- `FirstAidRAGAssistant.generate_response_with_groq`: calls the generation
service on the built message list and sanitizes the output; any exception is
caught and replaced by a safety message that embeds the exception text,
itself sanitized. -/
def generate_response_with_groq (env : Env) (query : String)
    (context_chunks : List Chunk) (chat_history : List Msg) : String :=
  match env.groq (groqMessages query context_chunks chat_history) with
  | .ok raw => clean_response_format raw
  | .error e =>
    clean_response_format
      ("Error generating response: " ++ e ++
       "\n\nFor any medical emergency, call 911/999 immediately.\n\nIf this is an emergency:\n1. Call emergency services (911/999)\n2. Stay calm and follow dispatcher instructions\n3. If trained, provide appropriate first aid until help arrives")

/-! ### Chat history (`rag.py` lines 442–467) -/

/-- `FirstAidRAGAssistant.get_chat_history`: all turns of the conversation
sorted by timestamp ascending, projected to `{role, content}`; a read
exception yields `[]`.  The `limit` parameter is accepted and — exactly as
in the source — never applied. -/
def get_chat_history (env : Env) (conversation_id : String) (_limit : Nat) :
    List Msg :=
  match env.historyFind conversation_id with
  | .error _ => []
  | .ok docs => (sortAscBy MsgDoc.timestamp docs).map (fun d => Msg.mk d.role d.content)

/-! ### Heuristic fallback responder (`rag.py` `_generate_fallback_response`) -/

/-- The injury keyword map, in Python dict insertion order. -/
def injury_map : List (String × String) :=
  [("sprain", "sprain"), ("ankle", "sprain"), ("wrist", "sprain"),
   ("strain", "sprain"), ("cut", "bleeding"), ("bleed", "bleeding"),
   ("blood", "bleeding"), ("burn", "burn"), ("fire", "burn"),
   ("scald", "burn"), ("acid", "acid_burn"), ("chemical", "acid_burn"),
   ("fracture", "fracture"), ("broken", "fracture"), ("bone", "fracture"),
   ("choke", "choking"), ("airway", "choking"), ("poison", "poisoning"),
   ("overdose", "poisoning"), ("snake", "snake_bite"), ("bite", "snake_bite"),
   ("sting", "snake_bite"), ("allergy", "allergic_reaction"),
   ("anaphylaxis", "allergic_reaction"), ("shock", "shock"),
   ("seizure", "seizure"), ("fit", "seizure"), ("faint", "fainting"),
   ("unconscious", "fainting"), ("breath", "breathing"),
   ("asthma", "breathing"), ("chest pain", "heart_attack"),
   ("heart", "heart_attack")]

/-- The symptom keyword map, in Python dict insertion order. -/
def symptom_map : List (String × String) :=
  [("vomit", "nausea_vomiting"), ("nausea", "nausea_vomiting"),
   ("headache", "headache"), ("migraine", "headache"),
   ("dizzy", "dizziness"), ("lightheaded", "dizziness"),
   ("sweat", "heat_exhaustion"), ("hot", "heat_exhaustion"),
   ("heat", "heat_exhaustion"), ("fever", "fever"),
   ("muscle ache", "flu_like_illness"), ("body ache", "flu_like_illness"),
   ("chills", "flu_like_illness"), ("diarrhea", "food_poisoning"),
   ("stomach pain", "food_poisoning"), ("cramps", "food_poisoning")]

/-- The canned guidance blocks, keyed by detected context. -/
def fallback_responses : List (String × String) :=
  [("sprain", "⚠️ **Immediate Action**\n• Stop any activity that causes pain.\n• Apply an ice pack wrapped in a towel for 15-20 minutes every 2 hours.\n• Compress with a soft bandage (not too tight).\n• Elevate the injured limb above heart level.\n\n**When to Seek Medical Help**\n• You can\u0027t move or bear weight.\n• Pain or swelling worsens after 48 hours."),
   ("bleeding", "⚠️ **Immediate Action**\n• Apply firm pressure with a clean cloth or bandage.\n• Keep pressure for at least 10 minutes.\n• Elevate the wounded area if possible.\n\n**When to Seek Medical Help**\n• Bleeding won\u0027t stop or blood spurts.\n• The wound is deep or contaminated."),
   ("burn", "⚠️ **Immediate Action**\n• Cool the burn under cool running water for at least 10 minutes.\n• Remove jewelry or tight clothing near the burn.\n• Cover with sterile gauze (no creams or butter).\n\n**When to Seek Medical Help**\n• The burn is larger than your palm.\n• It affects the face, joints, or genitals."),
   ("acid_burn", "⚠️ **Immediate Action**\nSince the provided sources do not directly address acid burns, it\u0027s crucial to act quickly and carefully. If the acid burn is severe or covers a large area, CALL 911/999 IMMEDIATELY.\n\n**Step-by-Step Instructions**\n1. Remove any contaminated clothing or jewelry from the affected area to prevent further damage.\n2. Rinse the affected area with cool or lukewarm water for at least 20 minutes to help neutralize the acid. Avoid using hot water, as it can activate the acid and cause further damage.\n3. After rinsing, cover the affected area with a sterile, non-stick dressing or a clean cloth to protect it from further irritation.\n\n**When to Seek Medical Help**\n• If the burn is severe, large, or deep\n• If the burn is on the face, hands, or feet\n• If you experience difficulty breathing, as some acids can release toxic fumes\n\n**What NOT to Do**\n• Do not apply ice or ice water to the burn, as this can cause further damage\n• Do not use harsh or abrasive cleansers, as they can irritate the skin and worsen the burn\n\n**Additional Notes**\nThe provided sources do not offer specific guidance on treating acid burns. However, general first aid principles suggest rinsing the affected area with cool water and seeking medical attention if the burn is severe or covers a large area. It\u0027s essential to consult a medical professional or a reliable first aid resource for specific guidance on treating acid burns. The American Red Cross and NHS UK websites may have more comprehensive information on treating acid burns."),
   ("fracture", "⚠️ **Immediate Action**\n• Keep the injured limb still and supported.\n• Apply ice wrapped in a cloth to reduce swelling.\n• Do not move or straighten the limb.\n\n**When to Seek Medical Help**\n• Bone is visible or limb looks deformed.\n• Pain or swelling is severe.\nCALL 911/999 immediately for severe fractures."),
   ("choking", "⚠️ **Immediate Action**\n• Ask them to cough strongly.\n• If unable to breathe or talk, perform 5 back blows, then 5 abdominal thrusts.\n• Alternate until the obstruction clears.\n\n**When to Seek Medical Help**\n• They remain unable to breathe or lose consciousness.\nCALL 911/999 immediately."),
   ("poisoning", "⚠️ **Immediate Action**\n• Call a poison helpline or emergency services immediately.\n• Do not induce vomiting.\n• Keep the substance container for reference.\n\nCALL 911/999 IMMEDIATELY."),
   ("snake_bite", "⚠️ **Immediate Action**\n• Keep the person calm and still.\n• Keep bite area below heart level.\n• Remove tight items and call emergency help immediately.\n\n**What NOT to Do**\n• Do not cut, suck, or apply a tourniquet.\n\nCALL 911/999 IMMEDIATELY."),
   ("allergic_reaction", "⚠️ **Immediate Action**\n• If the person has an EpiPen, help them use it immediately.\n• Call emergency services right away.\n• Keep the person lying down with legs elevated.\n• Monitor breathing and be ready to perform CPR.\n\nCALL 911/999 IMMEDIATELY."),
   ("shock", "⚠️ **Immediate Action**\n• Call emergency services immediately.\n• Lay the person down with legs elevated (unless spinal injury suspected).\n• Keep them warm with blankets.\n• Do not give food or water.\n\nCALL 911/999 IMMEDIATELY."),
   ("seizure", "⚠️ **Immediate Action**\n• Protect the person from injury by clearing the area.\n• Place something soft under their head.\n• Time the seizure.\n• Turn them on their side after the seizure ends.\n\n**What NOT to Do**\n• Do not restrain them or put anything in their mouth.\n\n**When to Seek Medical Help**\n• Seizure lasts more than 5 minutes\n• Person doesn\u0027t regain consciousness\n• This is their first seizure"),
   ("fainting", "⚠️ **Immediate Action**\n• Help the person lie down flat.\n• Raise legs above heart level.\n• Loosen tight clothing.\n• Check breathing and responsiveness.\n\n**When to Seek Medical Help**\n• If unresponsive or not breathing, start CPR and call for help.\n• If they don\u0027t recover within a minute."),
   ("breathing", "⚠️ **Immediate Action**\n• Help them sit upright in a comfortable position.\n• Loosen tight clothing.\n• If they have an inhaler, help them use it.\n• Encourage slow, deep breaths.\n\n**When to Seek Medical Help**\n• Breathing doesn\u0027t improve\n• Lips or face turn blue\n• Person becomes unresponsive\n\nCALL 911/999 if severe."),
   ("heart_attack", "⚠️ **Immediate Action**\nCALL 911/999 IMMEDIATELY.\n• Keep the person calm and seated.\n• Loosen tight clothing.\n• Help them chew one regular aspirin (unless allergic).\n• Be ready to perform CPR if breathing stops."),
   ("nausea_vomiting", "**Possible causes:** food poisoning, stomach infection, migraine, or dehydration.\n\n⚠️ **Immediate Care**\n• Sip small amounts of water or an electrolyte drink.\n• Avoid solid food until vomiting subsides.\n• Rest in a cool, ventilated place.\n\n**When to Seek Medical Help**\n• Vomiting lasts more than 24 hours or you can\u0027t keep fluids down.\n• There\u0027s blood in vomit or severe stomach pain."),
   ("headache", "**Possible causes:** tension headache, dehydration, migraine, stress, or heat.\n\n⚠️ **Relief Steps**\n• Rest in a quiet, dark room.\n• Drink water - dehydration can worsen headaches.\n• Apply a cold compress to your forehead.\n\n**When to Seek Medical Help**\n• The headache is sudden and severe.\n• Vision changes, confusion, or vomiting occur."),
   ("dizziness", "**Possible causes:** dehydration, low blood sugar, fatigue, or fainting onset.\n\n⚠️ **What to Do**\n• Sit or lie down immediately.\n• Drink water or an electrolyte solution.\n• Eat something light if you haven\u0027t eaten recently.\n\n**When to Seek Medical Help**\n• Dizziness lasts long or occurs with chest pain or shortness of breath."),
   ("heat_exhaustion", "**Possible cause:** prolonged heat exposure or dehydration.\n\n⚠️ **Immediate Action**\n• Move to a cool, shaded area.\n• Loosen clothing and apply cool damp cloths.\n• Sip water or electrolyte solution slowly.\n\n**When to Seek Medical Help**\n• Vomiting or confusion develops.\n• Body temperature stays above 38°C (100.4°F)."),
   ("flu_like_illness", "**Possible cause:** viral infection or seasonal flu.\n\n⚠️ **Self-care**\n• Rest and stay hydrated.\n• Take paracetamol/acetaminophen for fever if needed.\n• Drink warm fluids and eat light foods.\n\n**When to Seek Medical Help**\n• Fever persists beyond 3 days.\n• Breathing difficulty or chest pain occurs."),
   ("food_poisoning", "**Possible cause:** contaminated food or water.\n\n⚠️ **Care Steps**\n• Drink water or ORS to prevent dehydration.\n• Avoid dairy, caffeine, and heavy foods.\n• Rest until recovery.\n\n**When to Seek Medical Help**\n• Severe abdominal pain or blood in stool.\n• Vomiting lasts more than 24 hours."),
   ("fever", "**Possible cause:** infection, flu, or heat illness.\n\n⚠️ **Care**\n• Stay hydrated and rest.\n• Apply a cool, damp cloth to forehead.\n• Take fever medication if recommended.\n\n**When to Seek Medical Help**\n• Fever greater than 39°C (102°F) or lasts more than 3 days.\n• There\u0027s persistent vomiting or confusion.")]

/-- The generic safe fallback at the end of `_generate_fallback_response`. -/
def genericFallback (query : String) : String :=
  "I couldn\u0027t find a direct match for: \"" ++ query ++
  "\".\n\n⚠️ **General First Aid Steps**\n1. Ensure safety and check responsiveness.\n2. Call emergency services if pain, bleeding, or confusion is severe.\n3. Provide rest, hydration, and reassurance.\n4. Monitor symptoms and avoid unnecessary movement.\n\n**Additional Notes**\nIf you feel worse or the issue persists, consult a doctor immediately."

/-- `FirstAidRAGAssistant._generate_fallback_response`: first matching key of
the merged injury/symptom map (insertion order, injuries first — the two
maps share no key) selects a canned guidance block; otherwise the generic
checklist. -/
def generate_fallback_response (query : String) : String :=
  let query_lower := pyLower query
  match (injury_map ++ symptom_map).find? (fun p => strContains query_lower p.1) with
  | some kv =>
    match (fallback_responses.find? (fun p => p.1 == kv.2)).map Prod.snd with
    | some resp =>
      "Based on your symptoms, this may indicate **" ++
      pyTitle (pyReplace kv.2 "_" " ") ++ "**.\n\n" ++ resp ++
      "\n\n**Additional Notes**\nThis is general first aid guidance. If symptoms worsen or you\u0027re unsure, seek professional medical advice."
    | none => genericFallback query
  | none => genericFallback query

/-! ### `answer_query` (`rag.py` lines 469–579) -/

/-- The second-chance retrieval loop of `answer_query`: for each expansion
variant, embed and query the index with `top_k = 3`; every match whose id is
not already among the collected extra chunks and whose chunk builds is
appended tagged `semantic_expanded_final`, with no score filter.  A variant
whose embed/query raises is skipped (`except: continue`). -/
def secondChanceQuery (env : Env) (alt : String) : Except String (List PMatch) := do
  let e ← generate_embedding env alt
  env.indexQuery e 3

/-- The body of the second-chance loop of `answer_query` (see
`secondChanceQuery` for the per-variant retrieval). -/
def secondChanceChunks (env : Env) (alts : List String) : List Chunk :=
  alts.foldl
    (fun extra alt =>
      match secondChanceQuery env alt with
      | .error _ => extra
      | .ok ms =>
        ms.foldl
          (fun extra m =>
            if (extra.map Chunk.chunk_id).contains m.id then extra
            else
              match build_chunk_from_match env m with
              | some c =>
                extra ++ [{ c with search_method := "semantic_expanded_final" }]
              | none => extra)
          extra)
    []

/-- `FirstAidRAGAssistant.answer_query`.  The chat-history/conversation
writes at the end of the source are caught, effect-only and do not touch the
returned dict; they are not modelled.  Exceptions of the encoder or the
vector index inside `hybrid_search` are not caught by the source and
propagate. -/
def answer_query (env : Env) (query : String) (conversation_id : Option String)
    (top_k : Nat) : Except String Answer := do
  let chat_history := match conversation_id with
    | some cid => get_chat_history env cid 6
    | none => []
  let retrieved ← hybrid_search env query top_k (3/5)
  let reranked := rerank_chunks retrieved query
  match (if reranked.isEmpty then
          (let extra := secondChanceChunks env ((expand_query (preprocess_query query)).drop 1)
           if extra.isEmpty then none
           else some (rerank_chunks extra query))
         else some reranked) with
  | none =>
    pure
      { query := query
        response := clean_response_format (generate_fallback_response query)
        sources := []
        confidence := "LOW"
        chunks_found := 0
        avg_relevance := none
        timestamp := env.now }
  | some chunks =>
    let response_text := generate_response_with_groq env query chunks chat_history
    let avg_score := (chunks.map Chunk.boosted_score).sum / (chunks.length : ℚ)
    let confidence :=
      if 4/5 < avg_score then "HIGH"
      else if 13/20 < avg_score then "MEDIUM"
      else "LOW"
    pure
      { query := query
        response := response_text
        sources := (chunks.take 6).map (fun c =>
          { title := c.title
            source := sourceLabel c.source
            category := c.category
            severity := c.severity
            relevance_score := pyRound3 c.score
            search_method := c.search_method })
        confidence := confidence
        chunks_found := chunks.length
        avg_relevance := some (pyRound3 avg_score)
        timestamp := env.now }

/-! ### Conversation manager (`backend/api/conversation.py`) -/

/-- A document of the `conversations` collection.  `created_at`/`updated_at`
are ISO-8601 strings in Mongo; they compare chronologically under Mongo's
lexicographic order and are modelled as naturals. -/
structure ConvDoc where
  conversation_id : String
  user_id : String
  title : String
  message_count : Nat
  last_query : String
  created_at : Nat
  updated_at : Nat
deriving DecidableEq, Repr

/-- A document of the `chat_history` collection (fields relevant to the
conversation manager). -/
structure ChatDoc where
  conversation_id : String
  role : String
  content : String
  timestamp : Nat
deriving DecidableEq, Repr

/-- The two collections touched by the conversation manager. -/
structure DBState where
  convs : List ConvDoc
  chat : List ChatDoc
deriving DecidableEq, Repr

/-- Mongo `delete_one`: remove the first matching document. -/
def deleteOneBy (p : α → Bool) : List α → List α
  | [] => []
  | x :: xs => if p x then xs else x :: deleteOneBy p xs

/-- `find({"user_id": user_id})` on the conversations collection. -/
def userConvs (st : DBState) (user_id : String) : List ConvDoc :=
  st.convs.filter (fun c => c.user_id == user_id)

/-- `conversation.manage_conversation_limit`: when the user has
`max_conversations` or more conversations, delete the
`count - max + 1` oldest ones by `created_at`, each together with its
chat-history documents. -/
def manage_conversation_limit (user_id : String) (st : DBState)
    (max_conversations : Nat) : DBState :=
  let conv_count := (userConvs st user_id).length
  if max_conversations ≤ conv_count then
    let to_delete_count := conv_count - max_conversations + 1
    let oldest_convs :=
      (sortAscBy ConvDoc.created_at (userConvs st user_id)).take to_delete_count
    oldest_convs.foldl
      (fun st conv =>
        DBState.mk
          (deleteOneBy (fun c => c.conversation_id == conv.conversation_id) st.convs)
          (st.chat.filter (fun h => !(h.conversation_id == conv.conversation_id))))
      st
  else st

/-- `conversation.create_conversation`: enforce the cap, then insert the new
conversation document (timestamps set to the current time `now`). -/
def create_conversation (conversation_id user_id query : String) (now : Nat)
    (st : DBState) (max_conversations : Nat) : DBState :=
  let st := manage_conversation_limit user_id st max_conversations
  let title := if 60 < query.length then String.mk (query.data.take 60) ++ "..."
    else query
  DBState.mk
    (st.convs ++ [ConvDoc.mk conversation_id user_id title 2 query now now])
    st.chat

/-! ### Embedding generator (`backend/RAG/embeddings.py`)

`EmbeddingGenerator.generate_embedding` mean-pools the token-level hidden
states and L2-normalizes unless the norm is zero.  The exact L2 norm needs
`Real.sqrt`, so this one model lives over `ℝ` (and is noncomputable); the
pipeline's own `generate_embedding` above stays over `ℚ`. -/

noncomputable def zipAddR (a b : List ℝ) : List ℝ :=
  List.zipWith (· + ·) a b

/-- `outputs.last_hidden_state.mean(dim=1)` for one batch row: componentwise
mean across the token vectors. -/
noncomputable def meanPool (hidden : List (List ℝ)) : List ℝ :=
  (match hidden with
   | [] => []
   | v :: vs => vs.foldl zipAddR v).map (fun x => x / (hidden.length : ℝ))

/-- Squared L2 norm over the reals. -/
noncomputable def normSq (v : List ℝ) : ℝ :=
  (v.map (fun x => x * x)).sum

/-- Squared L2 norm over the rationals (for the pipeline's embedding). -/
def normSqQ (v : List ℚ) : ℚ :=
  (v.map (fun x => x * x)).sum

/-- `EmbeddingGenerator.generate_embedding` as a function of the encoder's
token-level hidden states: mean-pool, then divide by the L2 norm when the
norm is positive (`np.linalg.norm` is never negative, so the `norm > 0`
test skips exactly the zero-norm case). -/
noncomputable def embGen_generate_embedding (hidden : List (List ℝ)) : List ℝ :=
  let embedding := meanPool hidden
  let norm := Real.sqrt (normSq embedding)
  if 0 < norm then embedding.map (fun x => x / norm) else embedding

/-! ### Specification-side formulation of the retrieval dedup

`hybrid_search_firstWins` restates `hybrid_search` the way the spec words
the invariant: each stage produces a list of candidates, the stages are
concatenated in stage order, and one keep-first-occurrence deduplication on
`chunk_id` is applied.  Proving it equal to `hybrid_search` settles the
"first occurrence (earlier stage) wins" reading. -/

/-- What a semantic stage produces before deduplication: the matches with
`score ≥ min_score` whose chunk builds, tagged. -/
def prodOf (env : Env) (tag : String) (min_score : ℚ) (ms : List PMatch) :
    List Chunk :=
  (ms.filter (fun m => decide (min_score ≤ m.score))).filterMap
    (fun m => (build_chunk_from_match env m).map
      (fun c => { c with search_method := tag }))

/-- What the keyword-fallback stage produces before deduplication. -/
def kwProd (env : Env) (query : String) : List Chunk :=
  (keyword_search_mongodb env (extract_keywords query) 5).map
    (fun c => { c with search_method := "keyword_fallback", score := 13/20 })

/-- Keep the first occurrence of every key, given keys already seen. -/
def dedupGo (key : α → String) : List String → List α → List α
  | _, [] => []
  | seen, c :: cs =>
    if seen.contains (key c) then dedupGo key seen cs
    else c :: dedupGo key (seen ++ [key c]) cs

/-- Keep the first occurrence of every key. -/
def dedupFirstBy (key : α → String) (l : List α) : List α :=
  dedupGo key [] l

/-- The flattened expansion-stage production. -/
def expProd (env : Env) (min_score : ℚ) (expRes : List (List PMatch)) :
    List Chunk :=
  (expRes.map (prodOf env "semantic_expanded" min_score)).flatten

/-- The spec-side accumulation: dedup-first over the stage productions in
stage order, the keyword production included exactly when the deduplicated
semantic candidates number fewer than 3. -/
def hybridCoreFirstWins (env : Env) (query : String) (res : List PMatch)
    (expRes : List (List PMatch)) (min_score : ℚ) : List Chunk :=
  let semantic := prodOf env "semantic_original" min_score res ++
    expProd env min_score expRes
  let base := dedupFirstBy Chunk.chunk_id semantic
  if base.length < 3 then
    dedupFirstBy Chunk.chunk_id (semantic ++ kwProd env query)
  else base

/-- `hybrid_search` with its accumulation written spec-side. -/
def hybrid_search_firstWins (env : Env) (query : String) (top_k : Nat)
    (min_score : ℚ) : Except String (List Chunk) := do
  let clean_query := preprocess_query query
  let emb ← generate_embedding env clean_query
  let res ← env.indexQuery emb top_k
  let expRes ← expansionResults env ((expand_query clean_query).drop 1)
  pure ((sortDescBy Chunk.score
    (hybridCoreFirstWins env query res expRes min_score)).take top_k)

/-! ### Concrete fixtures for witnesses and counterexamples -/

def metaBleed : PineMeta :=
  PineMeta.mk "apply firm pressure to the wound" "Severe bleeding" "injury"
    "high" "Red Cross: first aid manual" "s1"

def matchHigh : PMatch := PMatch.mk "c1" (9/10) metaBleed

def matchLow : PMatch := PMatch.mk "c2" (3/10) metaBleed

/-- Retrieval finds one strong candidate; the generation service times out. -/
def envGenFail : Env :=
  Env.mk (fun _ => .ok [[1]])
    (fun _ k => if k == 10 then .ok [matchHigh] else .ok [])
    (fun _ => .ok none) (fun _ _ => .ok []) (fun _ => .error "timeout")
    (fun _ => .ok []) "2024-01-01T00:00:00"

/-- Same environment, failing with a different generation error. -/
def envGenFail2 : Env :=
  Env.mk (fun _ => .ok [[1]])
    (fun _ k => if k == 10 then .ok [matchHigh] else .ok [])
    (fun _ => .ok none) (fun _ _ => .ok []) (fun _ => .error "connection reset")
    (fun _ => .ok []) "2024-01-01T00:00:00"

/-- Retrieval finds nothing anywhere; generation would succeed. -/
def envNone : Env :=
  Env.mk (fun _ => .ok [[1]]) (fun _ _ => .ok [])
    (fun _ => .ok none) (fun _ _ => .ok []) (fun _ => .ok "generated guidance")
    (fun _ => .ok []) "2024-01-01T00:00:00"

/-- The vector index is down: `index.query` raises. -/
def envDown : Env :=
  Env.mk (fun _ => .ok [[1]])
    (fun _ _ => .error "pinecone unavailable")
    (fun _ => .ok none) (fun _ _ => .ok []) (fun _ => .ok "generated guidance")
    (fun _ => .ok []) "2024-01-01T00:00:00"

/-- Primary and expansion stages find nothing; the smaller second-chance
queries (`top_k = 3`) return one low-scoring match. -/
def envSecondChance : Env :=
  Env.mk (fun _ => .ok [[1]])
    (fun _ k => if k == 3 then .ok [matchLow] else .ok [])
    (fun _ => .ok none) (fun _ _ => .ok []) (fun _ => .ok "generated guidance")
    (fun _ => .ok []) "2024-01-01T00:00:00"

/-- The encoder returns a pooled vector of non-unit norm. -/
def envEncode34 : Env :=
  Env.mk (fun _ => .ok [[3, 4]]) (fun _ _ => .ok [])
    (fun _ => .ok none) (fun _ _ => .ok []) (fun _ => .ok "generated guidance")
    (fun _ => .ok []) "2024-01-01T00:00:00"

/-- Seven chat-history turns with shuffled timestamps. -/
def msgs7 : List MsgDoc :=
  [MsgDoc.mk "user" "t3" 3, MsgDoc.mk "assistant" "t4" 4,
   MsgDoc.mk "user" "t1" 1, MsgDoc.mk "assistant" "t2" 2,
   MsgDoc.mk "user" "t5" 5, MsgDoc.mk "assistant" "t6" 6,
   MsgDoc.mk "user" "t0" 0]

/-- An environment whose chat-history collection holds seven turns. -/
def envHist7 : Env :=
  Env.mk (fun _ => .ok [[1]]) (fun _ _ => .ok [])
    (fun _ => .ok none) (fun _ _ => .ok []) (fun _ => .ok "generated guidance")
    (fun _ => .ok msgs7) "2024-01-01T00:00:00"

/-- Ten conversations owned by user `u`, with shuffled creation times, plus
chat turns for the oldest conversation and one other. -/
def st10 : DBState :=
  DBState.mk
    [ConvDoc.mk "k0" "u" "t" 2 "q" 5 5, ConvDoc.mk "k1" "u" "t" 2 "q" 3 3,
     ConvDoc.mk "k2" "u" "t" 2 "q" 8 8, ConvDoc.mk "k3" "u" "t" 2 "q" 1 1,
     ConvDoc.mk "k4" "u" "t" 2 "q" 9 9, ConvDoc.mk "k5" "u" "t" 2 "q" 0 0,
     ConvDoc.mk "k6" "u" "t" 2 "q" 7 7, ConvDoc.mk "k7" "u" "t" 2 "q" 2 2,
     ConvDoc.mk "k8" "u" "t" 2 "q" 6 6, ConvDoc.mk "k9" "u" "t" 2 "q" 4 4]
    [ChatDoc.mk "k5" "user" "hello" 0, ChatDoc.mk "k5" "assistant" "hi" 1,
     ChatDoc.mk "k2" "user" "other" 2]

/-- The chunk that `hybrid_search envGenFail "zzz" 10 (3/5)` retrieves. -/
def chunkC1 : Chunk :=
  Chunk.mk "c1" (9/10) "apply firm pressure to the wound" "Severe bleeding"
    "injury" "high" "Red Cross: first aid manual" "s1" "semantic_original" 0 0

/-- Two chunks with identical score whose texts share the same keywords. -/
def chunkTieA : Chunk :=
  Chunk.mk "a1" (1/2) "treat the burn with water" "Burns A" "injury" "medium"
    "NHS: guide" "s2" "semantic_original" 0 0

def chunkTieB : Chunk :=
  Chunk.mk "b1" (1/2) "treat the burn with water" "Burns B" "injury" "medium"
    "NHS: guide" "s3" "semantic_original" 0 0

/-! ## Lemma toolbox -/

theorem insertDescBy_perm (key : α → ℚ) (x : α) (l : List α) :
    (insertDescBy key x l).Perm (x :: l) := by
  induction l with
  | nil => exact List.Perm.refl _
  | cons y ys ih =>
    by_cases h : key y ≤ key x
    · simp [insertDescBy, h]
    · simp only [insertDescBy, if_neg h]
      exact (ih.cons y).trans (List.Perm.swap x y ys)

theorem sortDescBy_perm (key : α → ℚ) (l : List α) :
    (sortDescBy key l).Perm l := by
  induction l with
  | nil => exact List.Perm.refl _
  | cons x xs ih => exact (insertDescBy_perm key x _).trans (ih.cons x)

theorem insertDescBy_pairwise (key : α → ℚ) (x : α) (l : List α)
    (h : l.Pairwise (fun a b => key b ≤ key a)) :
    (insertDescBy key x l).Pairwise (fun a b => key b ≤ key a) := by
  induction l with
  | nil => simp [insertDescBy]
  | cons y ys ih =>
    rw [List.pairwise_cons] at h
    obtain ⟨hy, hys⟩ := h
    by_cases hxy : key y ≤ key x
    · simp only [insertDescBy, if_pos hxy]
      refine List.pairwise_cons.2 ⟨?_, List.pairwise_cons.2 ⟨hy, hys⟩⟩
      intro b hb
      rcases List.mem_cons.1 hb with hb | hb
      · exact hb ▸ hxy
      · exact (hy b hb).trans hxy
    · simp only [insertDescBy, if_neg hxy]
      refine List.pairwise_cons.2 ⟨?_, ih hys⟩
      intro b hb
      have hb' := (insertDescBy_perm key x ys).mem_iff.1 hb
      rcases List.mem_cons.1 hb' with hb'' | hb''
      · exact hb'' ▸ le_of_lt (lt_of_not_le hxy)
      · exact hy b hb''

theorem sortDescBy_pairwise (key : α → ℚ) (l : List α) :
    (sortDescBy key l).Pairwise (fun a b => key b ≤ key a) := by
  induction l with
  | nil => simp [sortDescBy]
  | cons x xs ih => exact insertDescBy_pairwise key x _ ih

theorem insertDescBy_filter (key : α → ℚ) (p : α → Bool)
    (hp : ∀ a b, p a = true → p b = true → key a = key b) (x : α) (l : List α)
    (hs : l.Pairwise (fun a b => key b ≤ key a)) :
    (insertDescBy key x l).filter p = (x :: l).filter p := by
  induction l with
  | nil => rfl
  | cons y ys ih =>
    rw [List.pairwise_cons] at hs
    obtain ⟨hy, hys⟩ := hs
    by_cases hxy : key y ≤ key x
    · simp [insertDescBy, hxy]
    · simp only [insertDescBy, if_neg hxy]
      have hrec := ih hys
      by_cases hpx : p x = true <;> by_cases hpy : p y = true
      · exact absurd (hp x y hpx hpy).symm.le hxy
      · simp [List.filter_cons, hpx, hpy, hrec]
      · simp [List.filter_cons, hpx, hpy, hrec]
      · simp [List.filter_cons, hpx, hpy, hrec]

theorem sortDescBy_filter (key : α → ℚ) (p : α → Bool)
    (hp : ∀ a b, p a = true → p b = true → key a = key b) (l : List α) :
    (sortDescBy key l).filter p = l.filter p := by
  induction l with
  | nil => rfl
  | cons x xs ih =>
    have h1 := insertDescBy_filter key p hp x (sortDescBy key xs)
      (sortDescBy_pairwise key xs)
    calc (sortDescBy key (x :: xs)).filter p
        = (x :: sortDescBy key xs).filter p := h1
      _ = (x :: xs).filter p := by simp [List.filter_cons, ih]

theorem insertAscBy_perm (key : α → Nat) (x : α) (l : List α) :
    (insertAscBy key x l).Perm (x :: l) := by
  induction l with
  | nil => exact List.Perm.refl _
  | cons y ys ih =>
    by_cases h : key x < key y
    · simp [insertAscBy, h]
    · simp only [insertAscBy, if_neg h]
      exact (ih.cons y).trans (List.Perm.swap x y ys)

theorem sortAscBy_perm (key : α → Nat) (l : List α) :
    (sortAscBy key l).Perm l := by
  induction l with
  | nil => exact List.Perm.refl _
  | cons x xs ih => exact (insertAscBy_perm key x _).trans (ih.cons x)

theorem insertAscBy_pairwise (key : α → Nat) (x : α) (l : List α)
    (h : l.Pairwise (fun a b => key a ≤ key b)) :
    (insertAscBy key x l).Pairwise (fun a b => key a ≤ key b) := by
  induction l with
  | nil => simp [insertAscBy]
  | cons y ys ih =>
    rw [List.pairwise_cons] at h
    obtain ⟨hy, hys⟩ := h
    by_cases hxy : key x < key y
    · simp only [insertAscBy, if_pos hxy]
      refine List.pairwise_cons.2 ⟨?_, List.pairwise_cons.2 ⟨hy, hys⟩⟩
      intro b hb
      rcases List.mem_cons.1 hb with hb | hb
      · exact hb ▸ le_of_lt hxy
      · exact (le_of_lt hxy).trans (hy b hb)
    · simp only [insertAscBy, if_neg hxy]
      refine List.pairwise_cons.2 ⟨?_, ih hys⟩
      intro b hb
      have hb' := (insertAscBy_perm key x ys).mem_iff.1 hb
      rcases List.mem_cons.1 hb' with hb'' | hb''
      · exact hb'' ▸ le_of_not_lt hxy
      · exact hy b hb''

theorem sortAscBy_pairwise (key : α → Nat) (l : List α) :
    (sortAscBy key l).Pairwise (fun a b => key a ≤ key b) := by
  induction l with
  | nil => simp [sortAscBy]
  | cons x xs ih => exact insertAscBy_pairwise key x _ ih

/-- A fold preserves a pointwise invariant of its accumulated list. -/
theorem foldlPreserves {β : Type _} (P : α → Prop) (f : List α → β → List α)
    (hstep : ∀ acc b, (∀ c ∈ acc, P c) → ∀ c ∈ f acc b, P c) :
    ∀ (l : List β) (acc : List α), (∀ c ∈ acc, P c) →
      ∀ c ∈ l.foldl f acc, P c := by
  intro l
  induction l with
  | nil => exact fun acc h => h
  | cons b bs ih =>
    intro acc h
    exact ih (f acc b) (hstep acc b h)

/-! ## C7 — sanitizer idempotence -/

/-- C7: the spec requires `clean_response_format` to be idempotent, but the
heading pass strips at most six `#` per line start, so a line of seven `#`
keeps one `#` after the first pass and loses it on the second:
sanitizing `"#######x"` yields `"#x"`, sanitizing again yields `"x"`. -/
theorem clean_response_format_not_idempotent :
    clean_response_format "#######x" = "#x" ∧
    clean_response_format (clean_response_format "#######x") = "x" ∧
    clean_response_format (clean_response_format "#######x") ≠
      clean_response_format "#######x" :=
  ⟨by decide, by decide, by decide⟩

/-! ## C9 — chat-history loading -/

/-- C9 (amended): `get_chat_history` returns all turns of the conversation —
as many as the collection holds — ordered by timestamp ascending (oldest
first); the `limit` parameter has no effect on the result. -/
theorem get_chat_history_returns_all_turns (env : Env) (cid : String)
    (l1 l2 : Nat) (docs : List MsgDoc) (h : env.historyFind cid = .ok docs) :
    get_chat_history env cid l1 = get_chat_history env cid l2 ∧
    (get_chat_history env cid l1).length = docs.length ∧
    get_chat_history env cid l1 =
      (sortAscBy MsgDoc.timestamp docs).map (fun d => Msg.mk d.role d.content) ∧
    (sortAscBy MsgDoc.timestamp docs).Pairwise
      (fun a b => a.timestamp ≤ b.timestamp) := by
  unfold get_chat_history
  rw [h]
  exact ⟨rfl, by simp [(sortAscBy_perm MsgDoc.timestamp docs).length_eq],
    rfl, sortAscBy_pairwise MsgDoc.timestamp docs⟩

/-- Witness for C9's amended theorem at a concrete seven-turn store. -/
theorem get_chat_history_returns_all_turns_witness :
    get_chat_history envHist7 "conv" 6 = get_chat_history envHist7 "conv" 0 ∧
    (get_chat_history envHist7 "conv" 6).length = msgs7.length ∧
    get_chat_history envHist7 "conv" 6 =
      (sortAscBy MsgDoc.timestamp msgs7).map (fun d => Msg.mk d.role d.content) ∧
    (sortAscBy MsgDoc.timestamp msgs7).Pairwise
      (fun a b => a.timestamp ≤ b.timestamp) :=
  get_chat_history_returns_all_turns envHist7 "conv" 6 0 msgs7 rfl

/-- C9 counterexample: with seven stored turns and `limit = 6`,
`get_chat_history` returns seven turns — more than `limit`. -/
theorem get_chat_history_limit_counterexample :
    6 < (get_chat_history envHist7 "conv" 6).length := by decide

/-! ## C2 — generation-failure handling -/

/-- C2 (amended): on any generation-service failure the returned text is the
sanitized concatenation of the error preamble — which embeds the particular
failure's message, so the text is not independent of the failure — with the
fixed emergency-contact and stabilization instructions; the exception never
escapes `generate_response_with_groq`.  The confidence tier is not forced to
low (see the counterexample). -/
theorem generate_response_failure_fallback (env : Env) (query : String)
    (context_chunks : List Chunk) (chat_history : List Msg) (e : String)
    (h : env.groq (groqMessages query context_chunks chat_history) = .error e) :
    generate_response_with_groq env query context_chunks chat_history =
      clean_response_format
        ("Error generating response: " ++ e ++
         "\n\nFor any medical emergency, call 911/999 immediately.\n\nIf this is an emergency:\n1. Call emergency services (911/999)\n2. Stay calm and follow dispatcher instructions\n3. If trained, provide appropriate first aid until help arrives") := by
  unfold generate_response_with_groq
  rw [h]

/-- Witness for C2's amended theorem at a concrete timing-out service. -/
theorem generate_response_failure_fallback_witness :
    envGenFail.groq (groqMessages "zzz" [] []) = .error "timeout" ∧
    generate_response_with_groq envGenFail "zzz" [] [] =
      clean_response_format
        ("Error generating response: " ++ "timeout" ++
         "\n\nFor any medical emergency, call 911/999 immediately.\n\nIf this is an emergency:\n1. Call emergency services (911/999)\n2. Stay calm and follow dispatcher instructions\n3. If trained, provide appropriate first aid until help arrives") :=
  ⟨rfl, generate_response_failure_fallback envGenFail "zzz" [] [] "timeout" rfl⟩

/-- C2 counterexample: with one high-scoring candidate retrieved and the
generation call timing out, `answer_query` reports confidence `HIGH`, not
low; and the substituted text differs between two different failures, so it
is not one fixed message. -/
theorem generation_failure_counterexample :
    (answer_query envGenFail "zzz" none 10).toOption.map Answer.confidence =
      some "HIGH" ∧
    generate_response_with_groq envGenFail "zzz" [] [] ≠
      generate_response_with_groq envGenFail2 "zzz" [] [] :=
  ⟨by decide, by decide⟩

/-! ## C10 — second-chance stage bypasses the score filter -/

/-- C10: every candidate collected by the second-chance loop carries the
`semantic_expanded_final` tag, and the loop applies no `min_score`
comparison: concretely, with the second-chance index response scoring 0.3 —
below the 0.60 `min_score` of the earlier stages — `answer_query` returns
that candidate among its sources. -/
theorem second_chance_final_tag_no_filter :
    (∀ (env : Env) (alts : List String),
      ∀ c ∈ secondChanceChunks env alts,
        c.search_method = "semantic_expanded_final") ∧
    (answer_query envSecondChance "burn" none 10).toOption.map
        (fun r => r.sources.map
          (fun s => (s.search_method, decide (s.relevance_score < 3/5)))) =
      some [("semantic_expanded_final", true)] := by
  constructor
  · intro env alts
    unfold secondChanceChunks
    refine foldlPreserves _ _ ?_ alts [] (by intro c hc; simp at hc)
    intro extra alt h
    cases hx : secondChanceQuery env alt with
    | error e => simpa [hx] using h
    | ok ms =>
      simp only [hx]
      refine foldlPreserves _ _ ?_ ms extra h
      intro acc m h2
      cases hmem : (acc.map Chunk.chunk_id).contains m.id with
      | true => simpa [hmem] using h2
      | false =>
        cases hb : build_chunk_from_match env m with
        | none => simpa [hmem, hb] using h2
        | some c0 =>
          intro c hc
          simp only [hmem, hb, Bool.false_eq_true, if_false] at hc
          rcases List.mem_append.1 hc with hc | hc
          · exact h2 c hc
          · rcases List.mem_singleton.1 hc with rfl
            rfl
  · decide

/-- Witness for the quantified half of C10 at a concrete run: the single
collected second-chance chunk indeed carries the final tag. -/
theorem second_chance_final_tag_no_filter_witness :
    ∀ c ∈ secondChanceChunks envSecondChance
      ((expand_query (preprocess_query "burn")).drop 1),
      c.search_method = "semantic_expanded_final" :=
  second_chance_final_tag_no_filter.1 envSecondChance
    ((expand_query (preprocess_query "burn")).drop 1)

/-! ## C6 — reranking -/

/-- C6: `rerank_chunks` annotates every candidate with
`keyword_overlap = |query keywords ∩ chunk-text keywords|` and
`boosted_score = score + overlap * 0.02`, and orders the annotated list as a
stable descending sort on `boosted_score`: it is a permutation, pairwise
non-increasing, and candidates of any fixed boosted score — in particular
ties with identical score and equal overlap — keep their pre-sort relative
order. -/
theorem rerank_chunks_stable_boost (chunks : List Chunk) (query : String)
    (h : chunks ≠ []) :
    (rerank_chunks chunks query).Perm
      (chunks.map (annotateChunk (extract_keywords query).dedup)) ∧
    (rerank_chunks chunks query).Pairwise
      (fun a b => b.boosted_score ≤ a.boosted_score) ∧
    (∀ v : ℚ, (rerank_chunks chunks query).filter
        (fun c => decide (c.boosted_score = v)) =
      (chunks.map (annotateChunk (extract_keywords query).dedup)).filter
        (fun c => decide (c.boosted_score = v))) ∧
    (∀ c ∈ rerank_chunks chunks query,
      c.boosted_score = c.score + c.keyword_overlap * (1/50) ∧
      c.keyword_overlap = ((extract_keywords c.text).dedup.filter
        (fun w => ((extract_keywords query).dedup).contains w)).length) := by
  have hne : chunks.isEmpty = false := by
    cases chunks with
    | nil => exact absurd rfl h
    | cons a as => rfl
  have hform : rerank_chunks chunks query =
      sortDescBy Chunk.boosted_score
        (chunks.map (annotateChunk (extract_keywords query).dedup)) := by
    unfold rerank_chunks
    rw [hne]
    rfl
  rw [hform]
  refine ⟨sortDescBy_perm _ _, sortDescBy_pairwise _ _, ?_, ?_⟩
  · intro v
    exact sortDescBy_filter Chunk.boosted_score _
      (fun a b ha hb =>
        (of_decide_eq_true ha).trans (of_decide_eq_true hb).symm) _
  · intro c hc
    have hc' := (sortDescBy_perm Chunk.boosted_score _).subset hc
    rcases List.mem_map.1 hc' with ⟨c0, _, rfl⟩
    exact ⟨rfl, rfl⟩

/-- Witness for C6 at two concrete tied candidates. -/
theorem rerank_chunks_stable_boost_witness :
    (rerank_chunks [chunkTieA, chunkTieB] "burn").Perm
      ([chunkTieA, chunkTieB].map
        (annotateChunk (extract_keywords "burn").dedup)) ∧
    (rerank_chunks [chunkTieA, chunkTieB] "burn").Pairwise
      (fun a b => b.boosted_score ≤ a.boosted_score) ∧
    (∀ v : ℚ, (rerank_chunks [chunkTieA, chunkTieB] "burn").filter
        (fun c => decide (c.boosted_score = v)) =
      ([chunkTieA, chunkTieB].map
        (annotateChunk (extract_keywords "burn").dedup)).filter
        (fun c => decide (c.boosted_score = v))) ∧
    (∀ c ∈ rerank_chunks [chunkTieA, chunkTieB] "burn",
      c.boosted_score = c.score + c.keyword_overlap * (1/50) ∧
      c.keyword_overlap = ((extract_keywords c.text).dedup.filter
        (fun w => ((extract_keywords "burn").dedup).contains w)).length) :=
  rerank_chunks_stable_boost [chunkTieA, chunkTieB] "burn" (by decide)

/-! ## Retrieval accumulation = keep-first-occurrence dedup -/

theorem build_chunk_fields (env : Env) (m : PMatch) (c : Chunk)
    (h : build_chunk_from_match env m = some c) :
    c.chunk_id = m.id ∧ c.score = m.score := by
  unfold build_chunk_from_match at h
  cases henv : env.findChunk m.id with
  | error e => rw [henv] at h; cases h
  | ok od =>
    rw [henv] at h
    cases h
    exact ⟨rfl, rfl⟩

theorem dedupGo_cons_mem (key : α → String) (seen : List String) (c : α)
    (l : List α) (h : seen.contains (key c) = true) :
    dedupGo key seen (c :: l) = dedupGo key seen l := by
  simp only [dedupGo]
  rw [if_pos h]

theorem dedupGo_cons_new (key : α → String) (seen : List String) (c : α)
    (l : List α) (h : seen.contains (key c) = false) :
    dedupGo key seen (c :: l) = c :: dedupGo key (seen ++ [key c]) l := by
  simp only [dedupGo]
  rw [if_neg (show ¬ seen.contains (key c) = true from by
    rw [h]; exact Bool.false_ne_true)]

theorem dedupGo_append (key : α → String) :
    ∀ (A B : List α) (seen : List String),
      dedupGo key seen (A ++ B) =
        dedupGo key seen A ++
          dedupGo key (seen ++ (dedupGo key seen A).map key) B := by
  intro A
  induction A with
  | nil => intro B seen; simp [dedupGo]
  | cons a A ih =>
    intro B seen
    rw [List.cons_append]
    cases h : seen.contains (key a) with
    | true =>
      rw [dedupGo_cons_mem key seen a (A ++ B) h, ih B seen,
        dedupGo_cons_mem key seen a A h]
    | false =>
      rw [dedupGo_cons_new key seen a (A ++ B) h, ih B (seen ++ [key a]),
        dedupGo_cons_new key seen a A h]
      simp [List.append_assoc]

theorem dedupGo_nodup (key : α → String) :
    ∀ (l : List α) (seen : List String),
      ((dedupGo key seen l).map key).Nodup ∧
      ∀ k ∈ (dedupGo key seen l).map key, ¬ seen.contains k := by
  intro l
  induction l with
  | nil => intro seen; simp [dedupGo]
  | cons c l ih =>
    intro seen
    by_cases h : seen.contains (key c)
    · simpa only [dedupGo, if_pos h] using ih seen
    · simp only [dedupGo, if_neg h, List.map_cons]
      obtain ⟨hnd, hni⟩ := ih (seen ++ [key c])
      refine ⟨List.nodup_cons.2 ⟨?_, hnd⟩, ?_⟩
      · intro hmem
        have := hni _ hmem
        simp at this
      · intro k hk
        rcases List.mem_cons.1 hk with hk | hk
        · subst hk; exact fun hc => h hc
        · intro hc
          refine hni k hk ?_
          have hk2 : k ∈ seen := by simpa using hc
          simp [hk2]

theorem dedupGo_subset (key : α → String) :
    ∀ (l : List α) (seen : List String), dedupGo key seen l ⊆ l := by
  intro l
  induction l with
  | nil => intro seen; simp [dedupGo]
  | cons c l ih =>
    intro seen
    by_cases h : seen.contains (key c)
    · simp only [dedupGo, if_pos h]
      exact (ih seen).trans (List.subset_cons_self c l)
    · simp only [dedupGo, if_neg h]
      exact List.cons_subset_cons c (ih (seen ++ [key c]))

theorem prodOf_cons_some (env : Env) (tag : String) (mn : ℚ) (m : PMatch)
    (L : List PMatch) (c0 : Chunk) (hsc : mn ≤ m.score)
    (hb : build_chunk_from_match env m = some c0) :
    prodOf env tag mn (m :: L) =
      { c0 with search_method := tag } :: prodOf env tag mn L := by
  simp [prodOf, List.filter_cons, hsc, List.filterMap_cons, hb]

theorem prodOf_cons_none (env : Env) (tag : String) (mn : ℚ) (m : PMatch)
    (L : List PMatch) (hsc : mn ≤ m.score)
    (hb : build_chunk_from_match env m = none) :
    prodOf env tag mn (m :: L) = prodOf env tag mn L := by
  simp [prodOf, List.filter_cons, hsc, List.filterMap_cons, hb]

theorem prodOf_cons_low (env : Env) (tag : String) (mn : ℚ) (m : PMatch)
    (L : List PMatch) (hsc : ¬ mn ≤ m.score) :
    prodOf env tag mn (m :: L) = prodOf env tag mn L := by
  simp [prodOf, List.filter_cons, hsc]

/-- One step of `addMatches` as the fold unfolds it. -/
theorem addMatches_cons (env : Env) (tag : String) (mn : ℚ) (m : PMatch)
    (L : List PMatch) (cs : List Chunk) (seen : List String) :
    addMatches env tag mn (m :: L) (cs, seen) =
      addMatches env tag mn L
        (if mn ≤ m.score ∧ seen.contains m.id = false then
          match build_chunk_from_match env m with
          | some c =>
            (cs ++ [{ c with search_method := tag }], seen ++ [m.id])
          | none => (cs, seen)
        else (cs, seen)) := rfl

theorem addMatches_eq (env : Env) (tag : String) (mn : ℚ) :
    ∀ (L : List PMatch) (cs : List Chunk),
      addMatches env tag mn L (cs, cs.map Chunk.chunk_id) =
        (cs ++ dedupGo Chunk.chunk_id (cs.map Chunk.chunk_id) (prodOf env tag mn L),
         (cs ++ dedupGo Chunk.chunk_id (cs.map Chunk.chunk_id)
            (prodOf env tag mn L)).map Chunk.chunk_id) := by
  intro L
  induction L with
  | nil => intro cs; simp [addMatches, prodOf, dedupGo]
  | cons m L ih =>
    intro cs
    rw [addMatches_cons]
    by_cases hsc : mn ≤ m.score
    · cases hseen : (cs.map Chunk.chunk_id).contains m.id with
      | true =>
        rw [if_neg (show ¬(mn ≤ m.score ∧ true = false) from
          fun hcontra => absurd hcontra.2 (by decide))]
        cases hb : build_chunk_from_match env m with
        | some c0 =>
          have hidc : c0.chunk_id = m.id := (build_chunk_fields env m c0 hb).1
          rw [ih cs, prodOf_cons_some env tag mn m L c0 hsc hb,
            dedupGo_cons_mem Chunk.chunk_id _ _ _ (by
              show (cs.map Chunk.chunk_id).contains c0.chunk_id = true
              rw [hidc]; exact hseen)]
        | none =>
          rw [ih cs, prodOf_cons_none env tag mn m L hsc hb]
      | false =>
        rw [if_pos (show mn ≤ m.score ∧ false = false from ⟨hsc, rfl⟩)]
        cases hb : build_chunk_from_match env m with
        | some c0 =>
          dsimp only
          have hidc : c0.chunk_id = m.id := (build_chunk_fields env m c0 hb).1
          set c1 : Chunk := { c0 with search_method := tag } with hc1
          have hid1 : c1.chunk_id = m.id := hidc
          have hmap : cs.map Chunk.chunk_id ++ [m.id] =
              (cs ++ [c1]).map Chunk.chunk_id := by
            simp [hidc]
          rw [hmap, ih (cs ++ [c1]), prodOf_cons_some env tag mn m L c0 hsc hb,
            ← hc1,
            dedupGo_cons_new Chunk.chunk_id _ c1 _ (by
              show (cs.map Chunk.chunk_id).contains c1.chunk_id = false
              rw [hid1]; exact hseen)]
          rw [show (cs ++ [c1]).map Chunk.chunk_id =
              cs.map Chunk.chunk_id ++ [c1.chunk_id] from by simp]
          simp [List.append_assoc]
        | none =>
          dsimp only
          rw [ih cs, prodOf_cons_none env tag mn m L hsc hb]
    · rw [if_neg (show ¬(mn ≤ m.score ∧
            (cs.map Chunk.chunk_id).contains m.id = false) from
          fun hcontra => hsc hcontra.1), ih cs,
        prodOf_cons_low env tag mn m L hsc]

theorem addMatches_fold_eq (env : Env) (tag : String) (mn : ℚ) :
    ∀ (Ls : List (List PMatch)) (cs : List Chunk),
      Ls.foldl (fun st ms => addMatches env tag mn ms st)
          (cs, cs.map Chunk.chunk_id) =
        (cs ++ dedupGo Chunk.chunk_id (cs.map Chunk.chunk_id)
           ((Ls.map (prodOf env tag mn)).flatten),
         (cs ++ dedupGo Chunk.chunk_id (cs.map Chunk.chunk_id)
           ((Ls.map (prodOf env tag mn)).flatten)).map Chunk.chunk_id) := by
  intro Ls
  induction Ls with
  | nil => intro cs; simp [dedupGo]
  | cons ms Ls ih =>
    intro cs
    rw [List.foldl_cons, addMatches_eq env tag mn ms cs,
      ih (cs ++ dedupGo Chunk.chunk_id (cs.map Chunk.chunk_id)
        (prodOf env tag mn ms)),
      List.map_cons, List.flatten_cons, dedupGo_append]
    simp [List.append_assoc, List.map_append]

theorem addKeywordChunks_cons (kc : Chunk) (kcs : List Chunk)
    (cs : List Chunk) (seen : List String) :
    addKeywordChunks (kc :: kcs) (cs, seen) =
      addKeywordChunks kcs
        (if seen.contains kc.chunk_id = false then
          (cs ++ [{ kc with search_method := "keyword_fallback", score := 13/20 }],
           seen ++ [kc.chunk_id])
        else (cs, seen)) := rfl

theorem addKeywordChunks_eq :
    ∀ (kcs : List Chunk) (cs : List Chunk),
      addKeywordChunks kcs (cs, cs.map Chunk.chunk_id) =
        (cs ++ dedupGo Chunk.chunk_id (cs.map Chunk.chunk_id)
           (kcs.map (fun c =>
             { c with search_method := "keyword_fallback", score := 13/20 })),
         (cs ++ dedupGo Chunk.chunk_id (cs.map Chunk.chunk_id)
           (kcs.map (fun c =>
             { c with search_method := "keyword_fallback", score := 13/20 }))).map
           Chunk.chunk_id) := by
  intro kcs
  induction kcs with
  | nil => intro cs; simp [addKeywordChunks, dedupGo]
  | cons kc kcs ih =>
    intro cs
    rw [addKeywordChunks_cons]
    cases hseen : (cs.map Chunk.chunk_id).contains kc.chunk_id with
    | true =>
      set c1 : Chunk :=
        { kc with search_method := "keyword_fallback", score := 13/20 } with hc1
      rw [if_neg (show ¬(true = false) from by decide), ih cs, List.map_cons,
        ← hc1,
        dedupGo_cons_mem Chunk.chunk_id _ _ _ (show
          (cs.map Chunk.chunk_id).contains c1.chunk_id = true from hseen)]
    | false =>
      rw [if_pos (show (false = false) from rfl)]
      set c1 : Chunk :=
        { kc with search_method := "keyword_fallback", score := 13/20 } with hc1
      have hmap : cs.map Chunk.chunk_id ++ [kc.chunk_id] =
          (cs ++ [c1]).map Chunk.chunk_id := by
        simp
      rw [hmap, ih (cs ++ [c1]), List.map_cons, ← hc1,
        dedupGo_cons_new Chunk.chunk_id _ c1 _ (show
          (cs.map Chunk.chunk_id).contains c1.chunk_id = false from hseen)]
      rw [show (cs ++ [c1]).map Chunk.chunk_id =
          cs.map Chunk.chunk_id ++ [c1.chunk_id] from by simp]
      simp [List.append_assoc]

theorem hybridCore_eq_firstWins (env : Env) (q : String) (res : List PMatch)
    (expRes : List (List PMatch)) (mn : ℚ) :
    hybridCore env q res expRes mn = hybridCoreFirstWins env q res expRes mn := by
  unfold hybridCore hybridCoreFirstWins
  dsimp only
  rw [show (([], []) : List Chunk × List String) =
    (([] : List Chunk), ([] : List Chunk).map Chunk.chunk_id) from rfl]
  rw [addMatches_eq env "semantic_original" mn res [], List.map_nil,
    List.nil_append, addMatches_fold_eq env "semantic_expanded" mn expRes]
  unfold dedupFirstBy expProd
  rw [dedupGo_append Chunk.chunk_id
    (prodOf env "semantic_original" mn res)
    ((expRes.map (prodOf env "semantic_expanded" mn)).flatten) [],
    List.nil_append]
  set B := dedupGo Chunk.chunk_id []
      (prodOf env "semantic_original" mn res) ++
    dedupGo Chunk.chunk_id
      ((dedupGo Chunk.chunk_id [] (prodOf env "semantic_original" mn res)).map
        Chunk.chunk_id)
      ((expRes.map (prodOf env "semantic_expanded" mn)).flatten) with hB
  by_cases hlen : B.length < 3
  · rw [if_pos hlen, if_pos hlen]
    rw [addKeywordChunks_eq (keyword_search_mongodb env (extract_keywords q) 5) B]
    rw [dedupGo_append Chunk.chunk_id
      (prodOf env "semantic_original" mn res ++
        (expRes.map (prodOf env "semantic_expanded" mn)).flatten)
      (kwProd env q) [],
      List.nil_append,
      dedupGo_append Chunk.chunk_id
        (prodOf env "semantic_original" mn res)
        ((expRes.map (prodOf env "semantic_expanded" mn)).flatten) [],
      List.nil_append, ← hB]
    rfl
  · rw [if_neg hlen, if_neg hlen]

theorem hybrid_search_eq_firstWins (env : Env) (query : String) (top_k : Nat)
    (min_score : ℚ) :
    hybrid_search env query top_k min_score =
      hybrid_search_firstWins env query top_k min_score := by
  unfold hybrid_search hybrid_search_firstWins
  simp only [hybridCore_eq_firstWins]

theorem hybrid_ok_shape (env : Env) (q : String) (tk : Nat) (mn : ℚ)
    (cs : List Chunk) (h : hybrid_search env q tk mn = .ok cs) :
    ∃ res expRes,
      cs = (sortDescBy Chunk.score
        (hybridCoreFirstWins env q res expRes mn)).take tk := by
  rw [hybrid_search_eq_firstWins] at h
  unfold hybrid_search_firstWins at h
  dsimp only at h
  cases h1 : generate_embedding env (preprocess_query q) with
  | error e => rw [h1] at h; simp [Bind.bind, Except.bind] at h
  | ok emb =>
    rw [h1] at h
    simp only [Bind.bind, Except.bind] at h
    cases h2 : env.indexQuery emb tk with
    | error e => rw [h2] at h; simp at h
    | ok res =>
      rw [h2] at h
      cases h3 : expansionResults env
          ((expand_query (preprocess_query q)).drop 1) with
      | error e => rw [h3] at h; simp at h
      | ok expRes =>
        rw [h3] at h
        simp only [pure, Except.pure, Except.ok.injEq] at h
        exact ⟨res, expRes, h.symm⟩

theorem hybridCoreFirstWins_nodup (env : Env) (q : String) (res : List PMatch)
    (expRes : List (List PMatch)) (mn : ℚ) :
    ((hybridCoreFirstWins env q res expRes mn).map Chunk.chunk_id).Nodup := by
  unfold hybridCoreFirstWins
  dsimp only
  split
  · exact (dedupGo_nodup Chunk.chunk_id _ []).1
  · exact (dedupGo_nodup Chunk.chunk_id _ []).1

theorem hybridCoreFirstWins_subset (env : Env) (q : String) (res : List PMatch)
    (expRes : List (List PMatch)) (mn : ℚ) :
    hybridCoreFirstWins env q res expRes mn ⊆
      (prodOf env "semantic_original" mn res ++ expProd env mn expRes) ++
        kwProd env q := by
  unfold hybridCoreFirstWins dedupFirstBy
  dsimp only
  split
  · exact dedupGo_subset Chunk.chunk_id _ []
  · exact (dedupGo_subset Chunk.chunk_id _ []).trans
      (List.subset_append_left _ _)

theorem prodOf_mem (env : Env) (tag : String) (mn : ℚ) (ms : List PMatch)
    (c : Chunk) (h : c ∈ prodOf env tag mn ms) :
    c.search_method = tag ∧ mn ≤ c.score := by
  unfold prodOf at h
  rcases List.mem_filterMap.1 h with ⟨m, hm, hmap⟩
  rcases Option.map_eq_some'.1 hmap with ⟨c0, hb, hc⟩
  have hm2 := List.mem_filter.1 hm
  have hscore := (build_chunk_fields env m c0 hb).2
  subst hc
  refine ⟨rfl, ?_⟩
  show mn ≤ c0.score
  rw [hscore]
  exact of_decide_eq_true hm2.2

theorem expProd_mem (env : Env) (mn : ℚ) (Ls : List (List PMatch))
    (c : Chunk) (h : c ∈ expProd env mn Ls) :
    c.search_method = "semantic_expanded" ∧ mn ≤ c.score := by
  unfold expProd at h
  rcases List.mem_flatten.1 h with ⟨sub, hsub, hc⟩
  rcases List.mem_map.1 hsub with ⟨ms, _, rfl⟩
  exact prodOf_mem env "semantic_expanded" mn ms c hc

theorem kwProd_mem (env : Env) (q : String) (c : Chunk) (h : c ∈ kwProd env q) :
    c.search_method = "keyword_fallback" ∧ c.score = 13/20 := by
  unfold kwProd at h
  rcases List.mem_map.1 h with ⟨c0, _, rfl⟩
  exact ⟨rfl, rfl⟩

theorem except_eq_ok_of_toOption {ε α : Type _} (e : Except ε α) (a : α)
    (h : e.toOption = some a) : e = .ok a := by
  cases e with
  | ok b => simpa [Except.toOption] using h
  | error _ => simp [Except.toOption] at h

/-! ## C3 — dedup invariant, first occurrence wins -/

/-- C3: `hybrid_search` equals its spec-side reformulation
`hybrid_search_firstWins`, in which each stage's production is concatenated
in stage order and deduplicated by `chunk_id` keeping the first occurrence —
so the earlier stage wins — and every returned candidate list has pairwise
distinct `chunk_id`s. -/
theorem hybrid_search_dedup_first_wins (env : Env) (query : String)
    (top_k : Nat) (min_score : ℚ) :
    hybrid_search env query top_k min_score =
      hybrid_search_firstWins env query top_k min_score ∧
    ∀ cs, hybrid_search env query top_k min_score = .ok cs →
      (cs.map Chunk.chunk_id).Nodup := by
  refine ⟨hybrid_search_eq_firstWins env query top_k min_score, ?_⟩
  intro cs h
  obtain ⟨res, expRes, rfl⟩ := hybrid_ok_shape env query top_k min_score cs h
  have hnd := hybridCoreFirstWins_nodup env query res expRes min_score
  have hperm := (sortDescBy_perm Chunk.score
    (hybridCoreFirstWins env query res expRes min_score)).map Chunk.chunk_id
  have hnd2 := hperm.nodup_iff.2 hnd
  rw [List.map_take]
  exact List.Nodup.sublist (List.take_sublist _ _) hnd2

/-- Witness for C3 at a concrete environment returning one candidate. -/
theorem hybrid_search_dedup_first_wins_witness :
    hybrid_search envGenFail "zzz" 10 (3/5) =
      hybrid_search_firstWins envGenFail "zzz" 10 (3/5) ∧
    (([chunkC1] : List Chunk).map Chunk.chunk_id).Nodup :=
  ⟨(hybrid_search_dedup_first_wins envGenFail "zzz" 10 (3/5)).1,
   (hybrid_search_dedup_first_wins envGenFail "zzz" 10 (3/5)).2 [chunkC1]
     (except_eq_ok_of_toOption _ _ (by decide))⟩

/-! ## C4 — score filter and fixed fallback score -/

/-- C4: in every successful `hybrid_search` result, a candidate tagged
`semantic_original` or `semantic_expanded` scores at least `min_score`, and
a candidate tagged `keyword_fallback` carries the fixed score 0.65,
independent of `min_score`. -/
theorem hybrid_search_score_filter (env : Env) (query : String) (top_k : Nat)
    (min_score : ℚ) :
    ∀ cs, hybrid_search env query top_k min_score = .ok cs →
      ∀ c ∈ cs,
        ((c.search_method = "semantic_original" ∨
          c.search_method = "semantic_expanded") → min_score ≤ c.score) ∧
        (c.search_method = "keyword_fallback" → c.score = 13/20) := by
  intro cs h c hc
  obtain ⟨res, expRes, rfl⟩ := hybrid_ok_shape env query top_k min_score cs h
  have hc2 : c ∈ hybridCoreFirstWins env query res expRes min_score :=
    (sortDescBy_perm Chunk.score _).subset (List.take_subset _ _ hc)
  have hc3 := hybridCoreFirstWins_subset env query res expRes min_score hc2
  rcases List.mem_append.1 hc3 with hsem | hkw
  · rcases List.mem_append.1 hsem with h1 | h1
    · obtain ⟨htag, hscore⟩ :=
        prodOf_mem env "semantic_original" min_score res c h1
      refine ⟨fun _ => hscore, fun hk => ?_⟩
      rw [htag] at hk
      exact absurd hk (by decide)
    · obtain ⟨htag, hscore⟩ := expProd_mem env min_score expRes c h1
      refine ⟨fun _ => hscore, fun hk => ?_⟩
      rw [htag] at hk
      exact absurd hk (by decide)
  · obtain ⟨htag, hscore⟩ := kwProd_mem env query c hkw
    refine ⟨fun hor => ?_, fun _ => hscore⟩
    rcases hor with h1 | h1 <;> (rw [htag] at h1; exact absurd h1 (by decide))

/-- Witness for C4 at the same concrete environment. -/
theorem hybrid_search_score_filter_witness :
    ((chunkC1.search_method = "semantic_original" ∨
      chunkC1.search_method = "semantic_expanded") → (3 : ℚ)/5 ≤ chunkC1.score) ∧
    (chunkC1.search_method = "keyword_fallback" → chunkC1.score = 13/20) :=
  hybrid_search_score_filter envGenFail "zzz" 10 (3/5) [chunkC1]
    (except_eq_ok_of_toOption _ _ (by decide)) chunkC1 (List.mem_singleton.2 rfl)

/-! ## C1 — shape of the result of `answer_query` -/

theorem expansionResults_ok (env : Env)
    (henc : ∀ t, ∃ hs, env.encode t = .ok hs)
    (hidx : ∀ v k, ∃ ms, env.indexQuery v k = .ok ms) :
    ∀ alts, ∃ rs, expansionResults env alts = .ok rs := by
  intro alts
  induction alts with
  | nil => exact ⟨[], rfl⟩
  | cons a as ih =>
    obtain ⟨hd, hh⟩ := henc a
    obtain ⟨ms, hm⟩ := hidx (hd.head?.getD []) 5
    obtain ⟨rs, hrs⟩ := ih
    refine ⟨ms :: rs, ?_⟩
    have hge : generate_embedding env a = .ok (hd.head?.getD []) := by
      unfold generate_embedding
      rw [hh]
      simp [Bind.bind, Except.bind, pure, Except.pure]
    simp [expansionResults, hge, hm, hrs, Bind.bind, Except.bind, pure,
      Except.pure]

theorem hybrid_search_ok (env : Env) (q : String) (tk : Nat) (mn : ℚ)
    (henc : ∀ t, ∃ hs, env.encode t = .ok hs)
    (hidx : ∀ v k, ∃ ms, env.indexQuery v k = .ok ms) :
    ∃ cs, hybrid_search env q tk mn = .ok cs := by
  obtain ⟨hd, hh⟩ := henc (preprocess_query q)
  obtain ⟨res, hres⟩ := hidx (hd.head?.getD []) tk
  obtain ⟨expRes, hexp⟩ :=
    expansionResults_ok env henc hidx ((expand_query (preprocess_query q)).tail)
  refine ⟨(sortDescBy Chunk.score (hybridCore env q res expRes mn)).take tk, ?_⟩
  have hge : generate_embedding env (preprocess_query q) =
      .ok (hd.head?.getD []) := by
    unfold generate_embedding
    rw [hh]
    simp [Bind.bind, Except.bind, pure, Except.pure]
  unfold hybrid_search
  simp [hge, hres, hexp, Bind.bind, Except.bind, pure, Except.pure]

theorem rerank_chunks_length (l : List Chunk) (q : String) :
    (rerank_chunks l q).length = l.length := by
  unfold rerank_chunks
  by_cases h : l.isEmpty
  · rw [if_pos h]
  · rw [if_neg h, (sortDescBy_perm Chunk.boosted_score _).length_eq,
      List.length_map]

/-- Every successful result of `answer_query` has its query and timestamp
set, at most six sources, a confidence in the fixed tier set, and an
`avg_relevance` that is absent exactly on the zero-candidate fallback. -/
theorem answer_query_ok_props (env : Env) (query : String)
    (cid : Option String) (tk : Nat) (r : Answer)
    (h : answer_query env query cid tk = .ok r) :
    r.query = query ∧ r.timestamp = env.now ∧ r.sources.length ≤ 6 ∧
    (r.confidence = "HIGH" ∨ r.confidence = "MEDIUM" ∨ r.confidence = "LOW") ∧
    (r.avg_relevance = none ↔ r.chunks_found = 0) := by
  unfold answer_query at h
  cases hcs : hybrid_search env query tk (3/5) with
  | error e =>
    rw [hcs] at h
    simp [Bind.bind, Except.bind] at h
  | ok cs =>
    rw [hcs] at h
    simp only [Bind.bind, Except.bind] at h
    have hmain : ∀ (chunks : List Chunk) (hne : chunks.length ≠ 0),
        r.query = query → r.timestamp = env.now →
        r.sources = (chunks.take 6).map (fun c =>
          { title := c.title, source := sourceLabel c.source,
            category := c.category, severity := c.severity,
            relevance_score := pyRound3 c.score,
            search_method := c.search_method : SourceItem}) →
        (r.confidence = "HIGH" ∨ r.confidence = "MEDIUM" ∨
          r.confidence = "LOW") →
        r.chunks_found = chunks.length →
        (∃ v, r.avg_relevance = some v) →
        r.query = query ∧ r.timestamp = env.now ∧ r.sources.length ≤ 6 ∧
        (r.confidence = "HIGH" ∨ r.confidence = "MEDIUM" ∨
          r.confidence = "LOW") ∧
        (r.avg_relevance = none ↔ r.chunks_found = 0) := by
      intro chunks hne hq ht hs hc hf ⟨v, hv⟩
      refine ⟨hq, ht, ?_, hc, ?_⟩
      · rw [hs]
        simp only [List.length_map, List.length_take]
        exact Nat.min_le_left _ _
      · rw [hv, hf]
        constructor
        · intro habs; exact absurd habs (by simp)
        · intro h0; exact absurd h0 hne
    split at h
    · -- fallback branch
      injection h with h
      subst h
      refine ⟨rfl, rfl, by simp, Or.inr (Or.inr rfl), by simp⟩
    · -- main branch: the scrutinee produced `some chunks`
      rename_i chunks heq
      injection h with h
      subst h
      have hne : chunks.length ≠ 0 := by
        by_cases h1 : (rerank_chunks cs query).isEmpty
        · rw [if_pos h1] at heq
          try dsimp only at heq
          by_cases h2 : (secondChanceChunks env
              ((expand_query (preprocess_query query)).drop 1)).isEmpty
          · rw [if_pos h2] at heq
            simp at heq
          · rw [if_neg h2] at heq
            injection heq with heq
            subst heq
            rw [rerank_chunks_length]
            intro h0
            rw [List.length_eq_zero] at h0
            rw [h0] at h2
            exact h2 rfl
        · rw [if_neg h1] at heq
          injection heq with heq
          subst heq
          rw [rerank_chunks_length]
          intro h0
          rw [List.length_eq_zero] at h0
          rw [h0] at h1
          exact h1 rfl
      refine hmain chunks hne rfl rfl rfl ?_ rfl ⟨_, rfl⟩
      dsimp only
      split
      · exact Or.inl rfl
      · split
        · exact Or.inr (Or.inl rfl)
        · exact Or.inr (Or.inr rfl)

/-- C1 (amended): whenever the encoder and the vector index respond,
`answer_query` returns a fully built result — query, sanitized response
text, at most six sources, a confidence tier in {HIGH, MEDIUM, LOW},
`chunks_found` and timestamp — but `avg_relevance` is present exactly when
candidates were found: the no-candidates fallback dict omits it.  When the
encoder or index raises inside `hybrid_search`, the exception propagates to
the caller (see the counterexample). -/
theorem answer_query_well_formed (env : Env) (query : String)
    (cid : Option String) (tk : Nat)
    (henc : ∀ t, ∃ hs, env.encode t = .ok hs)
    (hidx : ∀ v k, ∃ ms, env.indexQuery v k = .ok ms) :
    ∃ r, answer_query env query cid tk = .ok r ∧
      r.query = query ∧ r.timestamp = env.now ∧ r.sources.length ≤ 6 ∧
      (r.confidence = "HIGH" ∨ r.confidence = "MEDIUM" ∨
        r.confidence = "LOW") ∧
      (r.avg_relevance = none ↔ r.chunks_found = 0) := by
  obtain ⟨cs, hcs⟩ := hybrid_search_ok env query tk (3/5) henc hidx
  have hok : ∃ r, answer_query env query cid tk = .ok r := by
    unfold answer_query
    rw [hcs]
    simp only [Bind.bind, Except.bind]
    split
    · exact ⟨_, rfl⟩
    · exact ⟨_, rfl⟩
  obtain ⟨r, hr⟩ := hok
  exact ⟨r, hr, answer_query_ok_props env query cid tk r hr⟩

/-- Witness for C1 at an environment whose retrieval finds nothing. -/
theorem answer_query_well_formed_witness :
    ∃ r, answer_query envNone "zzz" none 10 = .ok r ∧
      r.query = "zzz" ∧ r.timestamp = envNone.now ∧ r.sources.length ≤ 6 ∧
      (r.confidence = "HIGH" ∨ r.confidence = "MEDIUM" ∨
        r.confidence = "LOW") ∧
      (r.avg_relevance = none ↔ r.chunks_found = 0) :=
  answer_query_well_formed envNone "zzz" none 10
    (fun _ => ⟨[[1]], rfl⟩) (fun _ _ => ⟨[], rfl⟩)

/-- C1 counterexample: a vector-index exception inside `hybrid_search`
propagates out of `answer_query`, and on the no-candidates fallback path the
returned dict has no `avg_relevance` despite `chunks_found = 0`. -/
theorem answer_query_exception_counterexample :
    answer_query envDown "bleeding" none 10 = .error "pinecone unavailable" ∧
    (answer_query envNone "zzz" none 10).toOption.map Answer.avg_relevance =
      some none ∧
    (answer_query envNone "zzz" none 10).toOption.map Answer.chunks_found =
      some 0 :=
  ⟨by rfl, by decide, by decide⟩

/-! ## C5 — conversation-cap eviction -/

theorem deleteOneBy_split (key : α → String) (l : List α) (x : α)
    (hnd : (l.map key).Nodup) (hx : x ∈ l) :
    ∃ l1 l2, l = l1 ++ x :: l2 ∧
      deleteOneBy (fun y => key y == key x) l = l1 ++ l2 ∧
      ∀ y ∈ l1 ++ l2, key y ≠ key x := by
  induction l with
  | nil => cases hx
  | cons a as ih =>
    rw [List.map_cons, List.nodup_cons] at hnd
    obtain ⟨hka, hnd'⟩ := hnd
    by_cases hk : key a = key x
    · have hax : a = x := by
        rcases List.mem_cons.1 hx with h | hmem
        · exact h.symm
        · exact absurd (hk ▸ List.mem_map_of_mem key hmem) hka
      subst hax
      refine ⟨[], as, by simp, ?_, ?_⟩
      · show deleteOneBy (fun y => key y == key a) (a :: as) = [] ++ as
        simp [deleteOneBy]
      · intro y hy hkey
        rw [List.nil_append] at hy
        exact hka (hkey ▸ List.mem_map_of_mem key hy)
    · have hx' : x ∈ as := by
        rcases List.mem_cons.1 hx with h | hmem
        · exact absurd (h ▸ rfl) hk
        · exact hmem
      obtain ⟨l1, l2, hsplit, hdel, hkeys⟩ := ih hnd' hx'
      refine ⟨a :: l1, l2, by rw [hsplit]; rfl, ?_, ?_⟩
      · show deleteOneBy (fun y => key y == key x) (a :: as) = (a :: l1) ++ l2
        have : deleteOneBy (fun y => key y == key x) (a :: as) =
            a :: deleteOneBy (fun y => key y == key x) as := by
          simp [deleteOneBy, hk]
        rw [this, hdel]
        rfl
      · intro y hy
        have hy' : y = a ∨ y ∈ l1 ++ l2 := by
          rcases List.mem_append.1 hy with h | h
          · rcases List.mem_cons.1 h with h | h
            · exact Or.inl h
            · exact Or.inr (List.mem_append.2 (Or.inl h))
          · exact Or.inr (List.mem_append.2 (Or.inr h))
        rcases hy' with h | hmem
        · exact h ▸ hk
        · exact hkeys y hmem

/-- C5: for a user at the cap of 10 conversations, `create_conversation`
deletes the user's oldest conversation by `created_at` together with its
chat-history documents before inserting, leaving the user with exactly 10
conversations.  (Conversation ids are unique store-wide, and the new id is
fresh — both guaranteed by the unique Mongo index on `conversation_id`.) -/
theorem create_conversation_evicts_oldest (st : DBState) (uid cid q : String)
    (now : Nat)
    (hnd : (st.convs.map ConvDoc.conversation_id).Nodup)
    (hfresh : cid ∉ st.convs.map ConvDoc.conversation_id)
    (hcount : (userConvs st uid).length = 10) :
    (userConvs (create_conversation cid uid q now st 10) uid).length = 10 ∧
    ∃ old ∈ st.convs, old.user_id = uid ∧
      (∀ c ∈ st.convs, c.user_id = uid → old.created_at ≤ c.created_at) ∧
      old ∉ (create_conversation cid uid q now st 10).convs ∧
      (∀ h ∈ (create_conversation cid uid q now st 10).chat,
        h.conversation_id ≠ old.conversation_id) := by
  have hlen : (sortAscBy ConvDoc.created_at (userConvs st uid)).length = 10 := by
    rw [(sortAscBy_perm ConvDoc.created_at (userConvs st uid)).length_eq, hcount]
  cases hs : sortAscBy ConvDoc.created_at (userConvs st uid) with
  | nil => rw [hs] at hlen; simp at hlen
  | cons old rest =>
  have hold_mem_user : old ∈ userConvs st uid :=
    (sortAscBy_perm ConvDoc.created_at (userConvs st uid)).subset
      (hs ▸ List.mem_cons_self old rest)
  have hold_mem : old ∈ st.convs := (List.mem_filter.1 hold_mem_user).1
  have hold_uid : old.user_id = uid := by
    have := (List.mem_filter.1 hold_mem_user).2
    simpa using this
  have hmin : ∀ c ∈ st.convs, c.user_id = uid →
      old.created_at ≤ c.created_at := by
    intro c hc hcu
    have hcuser : c ∈ userConvs st uid :=
      List.mem_filter.2 ⟨hc, by simp [hcu]⟩
    have hcs : c ∈ sortAscBy ConvDoc.created_at (userConvs st uid) :=
      (sortAscBy_perm ConvDoc.created_at (userConvs st uid)).symm.subset hcuser
    rw [hs] at hcs
    rcases List.mem_cons.1 hcs with h | hrest
    · exact h ▸ le_refl _
    · have hpw := sortAscBy_pairwise ConvDoc.created_at (userConvs st uid)
      rw [hs] at hpw
      exact (List.pairwise_cons.1 hpw).1 c hrest
  obtain ⟨l1, l2, hsplit, hdel, hkeys⟩ :=
    deleteOneBy_split ConvDoc.conversation_id st.convs old hnd hold_mem
  have hmcl : manage_conversation_limit uid st 10 =
      DBState.mk (l1 ++ l2)
        (st.chat.filter
          (fun h => !(h.conversation_id == old.conversation_id))) := by
    unfold manage_conversation_limit
    dsimp only
    rw [hcount, if_pos (le_refl 10), hs]
    rw [show (10 - 10 + 1 : Nat) = 1 from rfl]
    rw [show (old :: rest).take 1 = [old] from rfl]
    rw [show ∀ (s : DBState) (f : DBState → ConvDoc → DBState),
      List.foldl f s [old] = f s old from fun s f => rfl]
    rw [hdel]
  have hst' : create_conversation cid uid q now st 10 =
      DBState.mk ((l1 ++ l2) ++
        [ConvDoc.mk cid uid
          (if 60 < q.length then String.mk (q.data.take 60) ++ "..." else q)
          2 q now now])
        (st.chat.filter
          (fun h => !(h.conversation_id == old.conversation_id))) := by
    unfold create_conversation
    rw [hmcl]
  rw [hst']
  refine ⟨?_, old, hold_mem, hold_uid, hmin, ?_, ?_⟩
  · unfold userConvs at hcount ⊢
    rw [hsplit] at hcount
    dsimp only
    rw [List.filter_append, List.filter_cons] at hcount
    rw [List.filter_append, List.filter_append, List.filter_cons]
    simp [hold_uid] at hcount ⊢
    omega
  · intro hmem
    dsimp only at hmem
    rcases List.mem_append.1 hmem with hmem | hmem
    · exact hkeys old hmem rfl
    · have hone : old = ConvDoc.mk cid uid
          (if 60 < q.length then String.mk (q.data.take 60) ++ "..." else q)
          2 q now now := by
        simpa using hmem
      apply hfresh
      rw [show cid = old.conversation_id from by rw [hone]]
      exact List.mem_map_of_mem ConvDoc.conversation_id hold_mem
  · intro h hmem
    dsimp only at hmem
    have := (List.mem_filter.1 hmem).2
    simpa using this

/-- Witness for C5 at a concrete ten-conversation store. -/
theorem create_conversation_evicts_oldest_witness :
    (userConvs (create_conversation "new0" "u" "query" 100 st10 10) "u").length
      = 10 ∧
    ∃ old ∈ st10.convs, old.user_id = "u" ∧
      (∀ c ∈ st10.convs, c.user_id = "u" → old.created_at ≤ c.created_at) ∧
      old ∉ (create_conversation "new0" "u" "query" 100 st10 10).convs ∧
      (∀ h ∈ (create_conversation "new0" "u" "query" 100 st10 10).chat,
        h.conversation_id ≠ old.conversation_id) :=
  create_conversation_evicts_oldest st10 "u" "new0" "query" 100
    (by decide) (by decide) (by decide)

/-! ## C8 — embedding normalization -/

theorem normSq_nonneg (v : List ℝ) : 0 ≤ normSq v := by
  unfold normSq
  refine List.sum_nonneg ?_
  intro x hx
  rcases List.mem_map.1 hx with ⟨y, _, rfl⟩
  exact mul_self_nonneg y

theorem normSq_map_div (v : List ℝ) (n : ℝ) :
    normSq (v.map (fun x => x / n)) = normSq v / (n * n) := by
  induction v with
  | nil => simp [normSq]
  | cons x v ih =>
    simp only [List.map_cons, normSq, List.sum_cons] at ih ⊢
    rw [show x / n * (x / n) = x * x / (n * n) from by
      rw [div_mul_div_comm], ih, div_add_div_same]

/-- C8 (amended): the retrieval pipeline's own `generate_embedding`
(`rag.py`) returns the encoder's first-token (CLS) pooled vector with no
normalization at all, while the separate `EmbeddingGenerator` of
`embeddings.py` — not used by the pipeline — mean-pools and L2-normalizes to
unit length, skipping normalization exactly when the raw norm is zero. -/
theorem embedding_pooling_normalization :
    (∀ (env : Env) (t : String) (hs : List (List ℚ)),
      env.encode t = .ok hs →
      generate_embedding env t = .ok (hs.headD [])) ∧
    (∀ hidden : List (List ℝ), normSq (meanPool hidden) ≠ 0 →
      normSq (embGen_generate_embedding hidden) = 1) := by
  constructor
  · intro env t hs h
    unfold generate_embedding
    rw [h]
    rfl
  · intro hidden hS
    have hS0 : 0 ≤ normSq (meanPool hidden) := normSq_nonneg (meanPool hidden)
    have hSpos : 0 < normSq (meanPool hidden) := lt_of_le_of_ne hS0 (Ne.symm hS)
    have hsq : 0 < Real.sqrt (normSq (meanPool hidden)) := Real.sqrt_pos.2 hSpos
    unfold embGen_generate_embedding
    rw [if_pos hsq, normSq_map_div,
      Real.mul_self_sqrt hS0]
    exact div_self hS

/-- Witness for C8's amended theorem at the concrete hidden state `[[3,4]]`
(norm 5): the pipeline embed returns it unpooled-unnormalized, the
`EmbeddingGenerator` model normalizes it to unit norm. -/
theorem embedding_pooling_normalization_witness :
    generate_embedding envEncode34 "query" = .ok ([[(3 : ℚ), 4]].headD []) ∧
    normSq (meanPool [[(3 : ℝ), 4]]) ≠ 0 ∧
    normSq (embGen_generate_embedding [[(3 : ℝ), 4]]) = 1 := by
  have hmp : meanPool [[(3 : ℝ), 4]] = [3 / 1, 4 / 1] := by
    simp [meanPool, zipAddR]
  have hne : normSq (meanPool [[(3 : ℝ), 4]]) ≠ 0 := by
    rw [hmp]
    simp [normSq]
    norm_num
  exact ⟨embedding_pooling_normalization.1 envEncode34 "query" [[3, 4]] rfl,
    hne, embedding_pooling_normalization.2 [[(3 : ℝ), 4]] hne⟩

/-- C8 counterexample: the embedding the retrieval pipeline uses is not
unit-normalized — at encoder output `[[3,4]]` its squared norm is 25, not 1,
and the norm is not zero, so the claimed skip-condition does not apply. -/
theorem pipeline_embedding_not_normalized :
    generate_embedding envEncode34 "bleeding" = .ok [3, 4] ∧
    normSqQ [3, 4] = 25 ∧ normSqQ [3, 4] ≠ 1 ∧ normSqQ [3, 4] ≠ 0 :=
  ⟨by rfl, by decide, by decide, by decide⟩

end FirstAid
